import Mathlib

/-!
Shallow embedding of the LeetQuest world-server simulation core
(`src/server/src/worldserver.js`) and proofs about the claims of its
specification.

Modelling conventions:
* Entity ids are `Nat` (JS uses numeric player ids and numeric-string ids for
  mobs/items; the decimal-string round trip through object keys and
  `parseInt` is the identity on these ids, so we keep them as `Nat`).
* Zone-group ids are `String` (the external spatial-partition provider
  returns string ids; JS truthiness of a group id is `≠ ""`).
* JS objects used as maps become association lists that keep insertion
  order; JS `delete` becomes a filter, key assignment becomes
  replace-or-append.
* The JS entities are shared mutable objects: the registry and the group
  rosters alias the same object.  We model every mutation of an entity by
  writing the new value back into the registry when (and only when) the id
  is currently registered (`World.setEntity`), and callers re-read an
  entity from the registry after a step that may have mutated it.
* Randomness (`Utils.random(100)` in `getDroppedItem`) is made an explicit
  argument `v`; real-time timers (item blink/despawn, the hate-forget
  cooldown) and the transport layer are external collaborators and are not
  part of the simulated state.  `processQueues` returns the list of batches
  handed to the transport instead of calling `connection.send`.
* Fallible code is embedded in `Except String`: `getDroppedItem` evaluates
  `Properties[kind].drops`, which raises a `TypeError` in JS when the mob
  kind has no entry in the external `Properties` table.
-/

namespace LeetQuest

abbrev EntityId := Nat
abbrev GroupId := String

/-- Closed set of entity kinds (`entity.type` strings in the JS source; the
`Chest` class extends `Item`, so JS `instanceof Item` holds for chests too). -/
inductive EType where
  | player
  | mob
  | npc
  | item
  | chest
deriving DecidableEq

/-- Outbound message catalogue (serialization formats are external; we keep
the constructor and the minimal payload the server passes). -/
inductive Msg where
  | population (n : Nat)
  | list (ids : List EntityId)
  | spawn (id : EntityId)
  | destroy (id : EntityId)
  | move (id : EntityId)
  | attack (id : EntityId)
  | damage (id : EntityId) (dmg : Nat)
  | kill (id : EntityId)
  | despawnMsg (id : EntityId)
  | drop (mobId itemId : EntityId)
  | blink (id : EntityId)
  | health (hp : Int)
deriving DecidableEq

/-- Wire encoding is an external concern (`message.serialize()`); the model
keeps the message value itself. -/
def Msg.serialize (m : Msg) : Msg := m

/-- Flat record covering the fields the server reads on entities of every
kind (JS objects are structurally open; fields unused by a kind stay at
their creation value). `attackers`, `haters` and the hate list store ids:
the JS maps store object references keyed by id and are always resolved
back through the registry here. -/
structure Entity where
  id : EntityId
  etype : EType
  kind : String
  x : Int
  y : Int
  group : Option GroupId
  recentlyLeftGroups : List GroupId
  attackers : List EntityId
  haters : List EntityId
  hitPoints : Int
  hatelist : List (EntityId × Nat)
  target : Option EntityId
  isStatic : Bool
  isFromChest : Bool
deriving DecidableEq

/-- Base entity value used to build concrete entities (the JS constructors
initialise these fields; we override per test world). -/
def baseEntity : Entity where
  id := 0
  etype := EType.npc
  kind := ""
  x := 0
  y := 0
  group := none
  recentlyLeftGroups := []
  attackers := []
  haters := []
  hitPoints := 0
  hatelist := []
  target := none
  isStatic := false
  isFromChest := false

/-- Zone group record (`initZoneGroups`): roster of replicated entities
(ids of the JS `entities` object keys), occupant players, pending-arrival
buffer. -/
structure Group where
  entities : List EntityId
  players : List EntityId
  incoming : List EntityId
deriving DecidableEq

def emptyGroup : Group where
  entities := []
  players := []
  incoming := []

/-- External spatial-partition provider (`map.js` is outside the core):
group list, adjacency query, group-from-position query. -/
structure GameMap where
  groupIds : List GroupId
  adjacent : GroupId → List GroupId
  getGroupIdFromPosition : Int → Int → GroupId

/-- Entry of the external `Properties` config table: a mob kind's record,
of which the server only reads the optional `drops` loot table (an ordered
list of `itemKindName × percentage`). -/
structure PropEntry where
  drops : Option (List (String × Nat))
deriving DecidableEq

/-- World-server state: the JS `World` instance fields used by the
simulation core. -/
structure World where
  entities : List (EntityId × Entity)
  players : List EntityId
  mobs : List EntityId
  items : List EntityId
  groups : List (GroupId × Group)
  outgoingQueues : List (EntityId × List Msg)
  map : GameMap
  itemCount : Nat
  properties : List (String × PropEntry)

/-! Association-list helpers modelling JS objects used as maps. -/

/-- Lookup of a key in an association list (JS property read). -/
def lookupA {κ ν : Type} [DecidableEq κ] : List (κ × ν) → κ → Option ν
  | [], _ => none
  | kv :: rest, k => if kv.1 = k then some kv.2 else lookupA rest k

/-- Update the value at a key if present (JS mutation of an existing
property; a missing key is left untouched — the JS object simply is not
this one). -/
def updateA {κ ν : Type} [DecidableEq κ] (l : List (κ × ν)) (k : κ) (f : ν → ν) :
    List (κ × ν) :=
  l.map (fun kv => if kv.1 = k then (kv.1, f kv.2) else kv)

/-- Key assignment on a JS object: replace the value if the key exists,
append the binding otherwise. -/
def insertA {κ ν : Type} [DecidableEq κ] (l : List (κ × ν)) (k : κ) (v : ν) :
    List (κ × ν) :=
  if (lookupA l k).isSome then updateA l k (fun _ => v) else l ++ [(k, v)]

/-- JS `delete obj[k]`. -/
def removeA {κ ν : Type} [DecidableEq κ] (l : List (κ × ν)) (k : κ) : List (κ × ν) :=
  l.filter (fun kv => !(kv.1 = k))

/-- Set insertion for id rosters (JS key assignment keyed by id: a present
key is overwritten in place, an absent one is added). -/
def insertId (l : List EntityId) (id : EntityId) : List EntityId :=
  if id ∈ l then l else l ++ [id]

theorem lookupA_updateA {κ ν : Type} [DecidableEq κ]
    (l : List (κ × ν)) (k k' : κ) (f : ν → ν) :
    lookupA (updateA l k f) k' =
      if k' = k then (lookupA l k').map f else lookupA l k' := by
  induction l with
  | nil => simp [lookupA, updateA]
  | cons kv rest ih =>
    obtain ⟨a, b⟩ := kv
    unfold updateA at ih ⊢
    by_cases h1 : a = k
    · subst h1
      by_cases h2 : k' = a
      · subst h2; simp [lookupA, ih]
      · have h3 : ¬ a = k' := fun h => h2 h.symm
        simp [lookupA, h3, ih, h2]
    · by_cases h2 : a = k'
      · subst h2
        simp [lookupA, h1]
      · simp [lookupA, h1, h2, ih]

theorem lookupA_append {κ ν : Type} [DecidableEq κ]
    (l l' : List (κ × ν)) (k : κ) :
    lookupA (l ++ l') k =
      match lookupA l k with
      | some v => some v
      | none => lookupA l' k := by
  induction l with
  | nil => simp [lookupA]
  | cons kv rest ih =>
    by_cases h : kv.1 = k <;> simp [lookupA, h, ih]

theorem lookupA_insertA {κ ν : Type} [DecidableEq κ]
    (l : List (κ × ν)) (k k' : κ) (v : ν) :
    lookupA (insertA l k v) k' =
      if k' = k then some v else lookupA l k' := by
  unfold insertA
  by_cases hs : (lookupA l k).isSome
  · rw [if_pos hs, lookupA_updateA]
    by_cases hk : k' = k
    · subst hk
      cases hl : lookupA l k' with
      | none => rw [hl] at hs; simp at hs
      | some v0 => simp [hl]
    · simp [hk]
  · rw [if_neg hs, lookupA_append]
    by_cases hk : k' = k
    · subst hk
      cases hl : lookupA l k' with
      | none => simp [lookupA]
      | some v0 => rw [hl] at hs; simp at hs
    · cases hl : lookupA l k' with
      | none =>
        have hk2 : ¬ k = k' := fun h => hk h.symm
        simp [lookupA, hk, hk2]
      | some v0 => simp [hk]

theorem lookupA_removeA {κ ν : Type} [DecidableEq κ]
    (l : List (κ × ν)) (k k' : κ) :
    lookupA (removeA l k) k' = if k' = k then none else lookupA l k' := by
  induction l with
  | nil => simp [lookupA, removeA]
  | cons kv rest ih =>
    obtain ⟨a, b⟩ := kv
    unfold removeA at ih ⊢
    by_cases h1 : a = k
    · subst h1
      by_cases h2 : k' = a
      · subst h2; simp [lookupA, List.filter, ih]
      · have h3 : ¬ a = k' := fun h => h2 h.symm
        simp [lookupA, List.filter, h3, ih, h2]
    · by_cases h2 : a = k'
      · subst h2
        simp [lookupA, List.filter, h1, ih]
      · simp [lookupA, List.filter, h1, h2, ih]

theorem keys_updateA {κ ν : Type} [DecidableEq κ]
    (l : List (κ × ν)) (k : κ) (f : ν → ν) :
    (updateA l k f).map Prod.fst = l.map Prod.fst := by
  induction l with
  | nil => rfl
  | cons kv rest ih =>
    unfold updateA at ih ⊢
    by_cases h : kv.1 = k <;> simp [h, ih]

/-! Entity methods.  `player.js`, `mob.js` and `character.js` are not part
of the given sources, so these are modelled from the spec (§3, §4.3). -/

/-- Modelled from the spec: a player's "current attacker set (mapping mob
id → mob reference)"; adding registers the mob's id (keyed map: re-adding
an existing key is a no-op on the key set). -/
def Entity.addAttacker (p : Entity) (mobId : EntityId) : Entity :=
  { p with attackers := insertId p.attackers mobId }

/-- Modelled from the spec: removing a mob from the player's attacker set
deletes its key. -/
def Entity.removeAttacker (p : Entity) (mobId : EntityId) : Entity :=
  { p with attackers := p.attackers.filter (fun i => !(i = mobId)) }

/-- Modelled from the spec: a player's "current hater set" is the reverse
lookup registered by `registerHate`; adding registers the mob id. -/
def Entity.addHater (p : Entity) (mobId : EntityId) : Entity :=
  { p with haters := insertId p.haters mobId }

/-- Modelled from the spec: dropping a mob from the player's hater set. -/
def Entity.removeHater (p : Entity) (mobId : EntityId) : Entity :=
  { p with haters := p.haters.filter (fun i => !(i = mobId)) }

/-- Modelled from the spec: a mob's "current target (player id or none)";
setting stores the player's id. -/
def Entity.setTarget (m : Entity) (p : Entity) : Entity :=
  { m with target := some p.id }

/-- Modelled from the spec: clearing the mob's target (`Targeting → Idle`). -/
def Entity.clearTarget (m : Entity) : Entity :=
  { m with target := none }

/-- Modelled from the spec: `registerHate` "adds `points` to mob's hatelist
entry for `playerId` (creating it if absent)". -/
def Entity.increaseHateFor (m : Entity) (playerId : EntityId) (points : Nat) : Entity :=
  if (lookupA m.hatelist playerId).isSome then
    { m with hatelist := updateA m.hatelist playerId (fun h => h + points) }
  else
    { m with hatelist := m.hatelist ++ [(playerId, points)] }

/-- Modelled from the spec: the dying player is "forgotten" by the mob (the
hate entry is dropped); the re-aggro cooldown window is a real-time timer
outside the simulated state and is not modelled. -/
def Entity.forgetPlayer (m : Entity) (playerId : EntityId) (_duration : Nat) : Entity :=
  { m with hatelist := m.hatelist.filter (fun h => !(h.1 = playerId)) }

/-- Earliest entry of maximal hate (ties keep the "stable order of
discovery" the spec prescribes). -/
def mostHated : List (EntityId × Nat) → Option (EntityId × Nat)
  | [] => none
  | e :: rest =>
    match mostHated rest with
    | none => some e
    | some b => if b.2 > e.2 then some b else some e

/-- Modelled from the spec: `chooseTarget` "resolves the player with the
given hate rank (1 = highest accumulated hate; rank 2 ... the next most
hated)"; a rank beyond the number of haters resolves to nobody. -/
def hatedAtRank : Nat → List (EntityId × Nat) → Option EntityId
  | 0, _ => none
  | 1, l => (mostHated l).map Prod.fst
  | n + 2, l =>
    match mostHated l with
    | some e => hatedAtRank (n + 1) (l.erase e)
    | none => none

/-- Modelled from the spec: rank lookup into the mob's hate list. -/
def Entity.getHatedPlayerId (m : Entity) (hateRank : Nat) : Option EntityId :=
  hatedAtRank hateRank m.hatelist

/-! World operations, embedded from `src/server/src/worldserver.js`. -/

/-- Registry lookup (`getEntityById`); an unknown id is logged and yields
`undefined`. -/
def World.getEntityById (w : World) (id : EntityId) : Option Entity :=
  lookupA w.entities id

/-- Write an entity value back into the registry.  JS mutates the shared
object in place: the registry binding changes exactly when the id is
registered, which is what `updateA` does. -/
def World.setEntity (w : World) (e : Entity) : World :=
  { w with entities := updateA w.entities e.id (fun _ => e) }

/-- Update one zone group record if it exists (JS mutates
`this.groups[id]` in place). -/
def updateGroup (w : World) (gid : GroupId) (f : Group → Group) : World :=
  { w with groups := updateA w.groups gid f }

/-- JS truthiness of an entity's (nullable, string-valued) group id. -/
def jsTruthyGroup : Option GroupId → Bool
  | none => false
  | some g => !(g = "")

/-- Adjacent groups of a nullable group id: the external map provider
(`map.forEachAdjacentGroup`) iterates nothing for a null id. -/
def adjacentOf (m : GameMap) : Option GroupId → List GroupId
  | none => []
  | some g => m.adjacent g

/-- `pushToPlayer`: append the serialized message to the player's outgoing
queue; a missing player or missing queue is logged and dropped
(fail-soft). -/
def pushToPlayer (w : World) (player : Option Entity) (message : Msg) : World :=
  match player with
  | some p =>
    if (lookupA w.outgoingQueues p.id).isSome then
      { w with outgoingQueues :=
          updateA w.outgoingQueues p.id (fun q => q ++ [message.serialize]) }
    else w
  | none => w

/-- `pushToGroup`: push to every player of the group's player list except
the ignored one (`playerId != ignoredPlayer`, with a null ignored id
matching nobody); an unknown group id is logged and ignored. -/
def pushToGroup (w : World) (groupId : GroupId) (message : Msg)
    (ignoredPlayer : Option EntityId) : World :=
  match lookupA w.groups groupId with
  | some group =>
    group.players.foldl
      (fun w playerId =>
        if ignoredPlayer = some playerId then w
        else pushToPlayer w (w.getEntityById playerId) message)
      w
  | none => w

/-- `pushToAdjacentGroups`: expand to the adjacency halo, then push to each
group. -/
def pushToAdjacentGroups (w : World) (groupId : Option GroupId) (message : Msg)
    (ignoredPlayer : Option EntityId) : World :=
  (adjacentOf w.map groupId).foldl
    (fun w id => pushToGroup w id message ignoredPlayer) w

/-- `pushToPreviousGroups`: push to every recently-left group, then clear
the stored list (the pushes touch only the queues, so the re-read of the
player observes the value the caller passed). -/
def pushToPreviousGroups (w : World) (player : Entity) (message : Msg) : World :=
  let w := player.recentlyLeftGroups.foldl
    (fun w id => pushToGroup w id message none) w
  let p := (w.getEntityById player.id).getD player
  w.setEntity { p with recentlyLeftGroups := [] }

/-- Iteration body of `processQueues`: each non-empty queue is handed to
the transport as one batch (`connection.send`) and reset to empty. -/
def processQueuesAux :
    List (EntityId × List Msg) → List (EntityId × List Msg) × List (EntityId × List Msg)
  | [] => ([], [])
  | (id, q) :: rest =>
    let r := processQueuesAux rest
    if q.length > 0 then ((id, []) :: r.1, (id, q) :: r.2)
    else ((id, q) :: r.1, r.2)

/-- `processQueues`: flush every player's queue; returns the new world and
the ordered list of `(playerId, batch)` hand-offs to the transport layer. -/
def processQueues (w : World) : World × List (EntityId × List Msg) :=
  let r := processQueuesAux w.outgoingQueues
  ({ w with outgoingQueues := r.1 }, r.2)

/-- `pushRelevantEntityListTo`: send the player the id list of its own
group's roster, minus its own id.  The JS guard `if (entities)` tests an
array, which is always truthy, so the message is sent even when the list
is empty; `keys`/`parseInt` round-trip the numeric ids. -/
def pushRelevantEntityListTo (w : World) (player : Option Entity) : World :=
  match player with
  | some p =>
    match p.group with
    | some g =>
      match lookupA w.groups g with
      | some group =>
        let entities := group.entities.filter (fun id => !(id = p.id))
        pushToPlayer w (some p) (Msg.list entities)
      | none => w
    | none => w
  | none => w

/-! Interest manager: group membership. -/

/-- Adjacency loop of `removeFromGroups`: delete the entity's key from each
adjacent group's roster where present and collect those group ids (in
adjacency order).  A group id the map reports but `initZoneGroups` never
created does not occur in a well-formed world; it is skipped here. -/
def removeLoop (eid : EntityId) : World → List GroupId → World × List GroupId
  | w, [] => (w, [])
  | w, gid :: rest =>
    match lookupA w.groups gid with
    | some grp =>
      if eid ∈ grp.entities then
        let w := updateGroup w gid
          (fun g => { g with entities := g.entities.filter (fun i => !(i = eid)) })
        let r := removeLoop eid w rest
        (r.1, gid :: r.2)
      else removeLoop eid w rest
    | none => removeLoop eid w rest

/-- `removeFromGroups`: drop a player's id from its primary group's player
list, delete the entity from the rosters of every group adjacent to its
old group, null the entity's group, and return the groups it was removed
from. -/
def removeFromGroups (w : World) (e : Entity) : World × Entity × List GroupId :=
  match e.group with
  | some g =>
    if g = "" then (w, e, [])
    else
      let w :=
        if e.etype = EType.player then
          updateGroup w g
            (fun grp => { grp with players := grp.players.filter (fun i => !(i = e.id)) })
        else w
      let r := removeLoop e.id w (w.map.adjacent g)
      let e := { e with group := none }
      (r.1.setEntity e, e, r.2)
  | none => (w, e, [])

/-- Adjacency loop of `addToGroup`: insert the entity into each adjacent
group's roster and collect every adjacent id. -/
def addLoop (eid : EntityId) : World → List GroupId → World × List GroupId
  | w, [] => (w, [])
  | w, gid :: rest =>
    let w := updateGroup w gid (fun g => { g with entities := insertId g.entities eid })
    let r := addLoop eid w rest
    (r.1, gid :: r.2)

/-- `addToGroup`: replicate the entity into the full adjacency halo of
`groupId`, set its group, and append a player's id to the new primary
group's player list. -/
def addToGroup (w : World) (e : Entity) (groupId : GroupId) : World × Entity × List GroupId :=
  if groupId ≠ "" ∧ (lookupA w.groups groupId).isSome then
    let r := addLoop e.id w (w.map.adjacent groupId)
    let e := { e with group := some groupId }
    let w := r.1.setEntity e
    let w :=
      if e.etype = EType.player then
        updateGroup w groupId (fun grp => { grp with players := grp.players ++ [e.id] })
      else w
    (w, e, r.2)
  else (w, e, [])

/-- Adjacency loop of `addAsIncomingToGroup`. -/
def incomingLoop (eid : EntityId) (keep : Bool) : World → List GroupId → World
  | w, [] => w
  | w, gid :: rest =>
    let w :=
      match lookupA w.groups gid with
      | some _ =>
        if keep then
          updateGroup w gid (fun g => { g with incoming := g.incoming ++ [eid] })
        else w
      | none => w
    incomingLoop eid keep w rest

/-- `addAsIncomingToGroup`: register the entity as pending a spawn
announcement in the halo of `groupId`.  Items dropped off mobs are skipped
(they are announced via a dedicated drop message).  The JS
`!includes(group.entities, entity.id)` guard compares the roster's values
— entity objects — with an id, so it never finds a match and always
passes; it is therefore omitted from the condition. -/
def addAsIncomingToGroup (w : World) (e : Entity) (groupId : GroupId) : World :=
  let isChest : Bool := decide (e.etype = EType.chest)
  let isItem : Bool := decide (e.etype = EType.item) || isChest
  let isDroppedItem : Bool := isItem && !e.isStatic && !e.isFromChest
  let keep : Bool := !isItem || isChest || (isItem && !isDroppedItem)
  if groupId = "" then w
  else incomingLoop e.id keep w (w.map.adjacent groupId)

/-- `handleEntityGroupMembership` (`updateMembership` of the spec):
recompute the entity's group from its position; when it has no (truthy)
group or the group changed, re-register it as incoming, move it between
the old and new halos, record `recentlyLeftGroups = oldGroups − newGroups`
when at least one group was left, and report the change. -/
def handleEntityGroupMembership (w : World) (e : Entity) : World × Entity × Bool :=
  let groupId := w.map.getGroupIdFromPosition e.x e.y
  if jsTruthyGroup e.group = false ∨ e.group ≠ some groupId then
    let w := addAsIncomingToGroup w e groupId
    let r1 := removeFromGroups w e
    let r2 := addToGroup r1.1 r1.2.1 groupId
    let oldGroups := r1.2.2
    let newGroups := r2.2.2
    let e3 := r2.2.1
    if oldGroups.length > 0 then
      let e4 := { e3 with
        recentlyLeftGroups := oldGroups.filter (fun g => !(newGroups.contains g)) }
      (r2.1.setEntity e4, e4, true)
    else (r2.1, e3, true)
  else (w, e, false)

/-! Entity registry operations. -/

/-- `addEntity`: register the entity and compute its initial group
membership. -/
def addEntity (w : World) (e : Entity) : World × Entity :=
  let w := { w with entities := insertA w.entities e.id e }
  let r := handleEntityGroupMembership w e
  (r.1, r.2.1)

/-- `addPlayer`: `addEntity` plus the player index and a fresh outgoing
queue. -/
def addPlayer (w : World) (p : Entity) : World × Entity :=
  let r := addEntity w p
  ({ r.1 with
      players := insertId r.1.players p.id,
      outgoingQueues := insertA r.1.outgoingQueues p.id [] },
    r.2)

/-- `addMob`: `addEntity` plus the mob index. -/
def addMob (w : World) (m : Entity) : World × Entity :=
  let r := addEntity w m
  ({ r.1 with mobs := insertId r.1.mobs m.id }, r.2)

/-- `addItem`: `addEntity` plus the item index. -/
def addItem (w : World) (it : Entity) : World × Entity :=
  let r := addEntity w it
  ({ r.1 with items := insertId r.1.items it.id }, r.2)

/-- Decimal digit count (fuel-based so it reduces in the kernel). -/
def numDigitsAux : Nat → Nat → Nat
  | 0, _ => 1
  | f + 1, n => if n < 10 then 1 else 1 + numDigitsAux f (n / 10)

def numDigits (n : Nat) : Nat := numDigitsAux n n

/-- Item ids are the JS template string `` `9${itemCount}` `` read back as a
number. -/
def jsItemId (n : Nat) : EntityId := 9 * 10 ^ numDigits n + n

/-- `createItem`: allocate the next item id and build an `Item` (or a
`Chest` when the kind is the chest kind). -/
def createItem (w : World) (kindName : String) (x y : Int) : World × Entity :=
  let id := jsItemId w.itemCount
  let w := { w with itemCount := w.itemCount + 1 }
  let item := { baseEntity with
    id := id,
    etype := if kindName = "chest" then EType.chest else EType.item,
    kind := kindName,
    x := x,
    y := y }
  (w, item)

/-! Aggro / combat engine. -/

/-- `clearMobAggroLink`: the mob is no longer registered as an attacker of
its current target (a vanished target player is logged and tolerated).
Entity ids are nonzero, so the JS truthiness test on `mob.target` is the
null test. -/
def clearMobAggroLink (w : World) (mob : Entity) : World :=
  match mob.target with
  | some targetId =>
    match w.getEntityById targetId with
    | some player => w.setEntity (player.removeAttacker mob.id)
    | none => w
  | none => w

/-- `clearMobHateLinks`: drop the mob from the hater set of every player on
its hate list. -/
def clearMobHateLinks (w : World) (mob : Entity) : World :=
  mob.hatelist.foldl
    (fun w obj =>
      match w.getEntityById obj.1 with
      | some player => w.setEntity (player.removeHater mob.id)
      | none => w)
    w

/-- `removeEntity`: unregister from the registry and the kind indexes,
cascade-clear a mob's aggro and hate links, run the entity's own `destroy`
hook (it only cancels the entity's deferred callbacks — no world state),
and leave all groups. -/
def removeEntity (w : World) (e : Entity) : World :=
  let w := { w with
    entities := removeA w.entities e.id,
    mobs := w.mobs.filter (fun i => !(i = e.id)),
    items := w.items.filter (fun i => !(i = e.id)) }
  let w := if e.etype = EType.mob then clearMobHateLinks (clearMobAggroLink w e) e else w
  (removeFromGroups w e).1

/-- `broadcastAttacker`: announce the attack to the attacker's halo,
excluding the attacker itself.  The attack callback registered in the
constructor additionally walks the mob next to its target using random
valid positions from the external map provider (`findPositionNextTo`); it
mutates only position and group membership — never aggro links, hate or
queues — and its unbounded random retry loop is not part of this
embedding. -/
def broadcastAttacker (w : World) (character : Entity) : World :=
  pushToAdjacentGroups w character.group (Msg.attack character.id) (some character.id)

/-- `chooseMobTarget`: resolve the player at the given hate rank; when the
mob is not already attacking it, sever the mob's existing aggro link and
establish the new one (both sides), then announce the attack. -/
def chooseMobTarget (w : World) (mob : Entity) (hateRank : Nat) : World :=
  match (mob.getHatedPlayerId hateRank).bind w.getEntityById with
  | some player =>
    if mob.id ∈ player.attackers then w
    else
      let w := clearMobAggroLink w mob
      let player := (w.getEntityById player.id).getD player
      let w := w.setEntity (player.addAttacker mob.id)
      let mob := mob.setTarget player
      let w := w.setEntity mob
      broadcastAttacker w mob
  | none => w

/-- `handleMobHate` (`registerHate` of the spec): accumulate hate, register
the reverse hater link, and re-evaluate the mob's target while it is
alive. -/
def handleMobHate (w : World) (mobId playerId : EntityId) (hatePoints : Nat) : World :=
  match w.getEntityById mobId, w.getEntityById playerId with
  | some mob, some player =>
    let mob := mob.increaseHateFor playerId hatePoints
    let w := w.setEntity mob
    let w := w.setEntity (player.addHater mobId)
    if mob.hitPoints > 0 then chooseMobTarget w mob 1 else w
  | _, _ => w

/-- `handlePlayerVanish`: every attacker of the vanishing player goes for
its second-most-hated player, then the links to the vanishing player are
severed and it is forgotten; finally the player's own group membership is
recomputed.  The attacker iteration runs over the snapshot of attacker
ids taken at entry (lodash `forEach` snapshots the keys); each body only
deletes its own key, and the shared mutable player/mob objects are
re-read from the registry at every use. -/
def handlePlayerVanish (w : World) (player : Entity) : World :=
  let attackerIds := player.attackers
  let w := attackerIds.foldl
    (fun w mobId =>
      match w.getEntityById mobId with
      | some mob => chooseMobTarget w mob 2
      | none => w)
    w
  let w := attackerIds.foldl
    (fun w mobId =>
      let w :=
        match w.getEntityById player.id with
        | some p => w.setEntity (p.removeAttacker mobId)
        | none => w
      match w.getEntityById mobId with
      | some mob => w.setEntity (mob.clearTarget.forgetPlayer player.id 1000)
      | none => w)
    w
  let p := (w.getEntityById player.id).getD player
  (handleEntityGroupMembership w p).1

/-- Loot walk of `getDroppedItem`: accumulate the percentages in table
order; the first entry whose running sum `p` satisfies `v <= p` wins. -/
def dropWin (v : Nat) : Nat → List (String × Nat) → Option String
  | _, [] => none
  | p, (itemName, percentage) :: rest =>
    let p := p + percentage
    if v ≤ p then some itemName else dropWin v p rest

/-- `getDroppedItem` with the draw `v` (`Utils.random(100)` at runtime)
made explicit.  The external `Types.getKindAsString` resolves the numeric
mob kind to its name; we store kind names directly, so the `Properties`
lookup is by `mob.kind`.  A kind with no `Properties` entry makes
`Properties[kind].drops` raise a `TypeError`; a present entry without a
`drops` table iterates `for...in` over `undefined`, i.e. zero times. -/
def getDroppedItem (w : World) (mob : Entity) (v : Nat) :
    Except String (World × Option Entity) :=
  match lookupA w.properties mob.kind with
  | none => Except.error "TypeError: cannot read properties of undefined"
  | some props =>
    match dropWin v 0 (props.drops.getD []) with
    | some itemName =>
      let r := createItem w itemName mob.x mob.y
      let r2 := addItem r.1 r.2
      Except.ok (r2.1, some r2.2)
    | none => Except.ok (w, none)

/-- `handleHurtEntity` with the loot draw `v` made explicit.  On lethal
damage to a mob: loot roll, kill notice to the attacker, despawn to the
halo, then (only with loot) the drop announcement — the source comments
this ordering ("Despawn must be enqueued before the item drop");
`handleItemDespawn` only schedules the external blink/destroy timers.  On
lethal damage to a player: `handlePlayerVanish`, then the despawn
announcement.  Either way the entity then leaves the registry. -/
def handleHurtEntity (w : World) (entity attacker : Entity) (damage v : Nat) :
    Except String World :=
  let w :=
    if entity.etype = EType.player then
      pushToPlayer w (some entity) (Msg.health entity.hitPoints)
    else w
  let w :=
    if entity.etype = EType.mob then
      pushToPlayer w (some attacker) (Msg.damage entity.id damage)
    else w
  if entity.hitPoints ≤ 0 then do
    let w ←
      if entity.etype = EType.mob then do
        let r ← getDroppedItem w entity v
        let w := r.1
        let w := pushToPlayer w (some attacker) (Msg.kill entity.id)
        let w := pushToAdjacentGroups w entity.group (Msg.despawnMsg entity.id) none
        let w :=
          match r.2 with
          | some item => pushToAdjacentGroups w entity.group (Msg.drop entity.id item.id) none
          | none => w
        pure w
      else pure w
    let w :=
      if entity.etype = EType.player then
        let w := handlePlayerVanish w entity
        let e := (w.getEntityById entity.id).getD entity
        pushToAdjacentGroups w e.group (Msg.despawnMsg e.id) none
      else w
    let e := (w.getEntityById entity.id).getD entity
    pure (removeEntity w e)
  else pure w

/-! Derived predicates and spec-side reformulations used by the claims. -/

/-- Cumulative percentage of the first `k` loot-table entries (spec side:
"walk the table accumulating percentages in table order"). -/
def cumPct (tbl : List (String × Nat)) (k : Nat) : Nat :=
  ((tbl.take k).map Prod.snd).sum

/-- Does group `g` currently carry `eid` in its entities roster? -/
def rosterHasB (w : World) (g : GroupId) (eid : EntityId) : Bool :=
  match lookupA w.groups g with
  | some grp => decide (eid ∈ grp.entities)
  | none => false

/-- Aggro link symmetry over the registry: for every registered mob `m` and
player `p`, `m.target = p.id` exactly when `m.id` is a key of `p`'s
attacker set.  (A mob's target is a single `Option`, so "no mob holds two
simultaneous targets" holds by representation.) -/
def aggroSymmetric (w : World) : Prop :=
  ∀ me ∈ w.entities, ∀ pe ∈ w.entities,
    me.2.etype = EType.mob → pe.2.etype = EType.player →
    (me.2.target = some pe.2.id ↔ me.2.id ∈ pe.2.attackers)

/-- Did the loot roll complete without an exception and produce no item? -/
def isOkNone : Except String (World × Option Entity) → Bool
  | Except.ok (_, none) => true
  | _ => false

/-- Did the loot roll raise an exception? -/
def isTypeError : Except String (World × Option Entity) → Bool
  | Except.error _ => true
  | _ => false

/-! Concrete fixtures: a one-group map and a small world exercised by the
reachable-state counterexamples and the witnesses. -/

/-- Single-group map: every position belongs to group `"g"`, whose halo is
itself. -/
def map1 : GameMap where
  groupIds := ["g"]
  adjacent := fun _ => ["g"]
  getGroupIdFromPosition := fun _ _ => "g"

/-- Fresh world over `map1` after `initZoneGroups`, with a Properties
table carrying the spec's example loot table `{A: 30, B: 20}` for kind
`"rat"` and an entry without a drops table for kind `"noloot"`. -/
def w0 : World where
  entities := []
  players := []
  mobs := []
  items := []
  groups := [("g", emptyGroup)]
  outgoingQueues := []
  map := map1
  itemCount := 0
  properties :=
    [("rat", { drops := some [("A", 30), ("B", 20)] }),
     ("noloot", { drops := none })]

def pEnt : Entity := { baseEntity with id := 1, etype := EType.player, hitPoints := 100 }

def qEnt : Entity := { baseEntity with id := 2, etype := EType.player, hitPoints := 100 }

def mEnt : Entity :=
  { baseEntity with id := 3, etype := EType.mob, kind := "rat", hitPoints := 100 }

/-- Reachable state: players 1 and 2 and mob 3 enter the world, then the
mob accumulates hate 10 for player 1 and hate 5 for player 2
(`handleMobHate`), so it targets player 1 and sits in player 1's attacker
set. -/
def wPre : World :=
  let w := (addPlayer w0 pEnt).1
  let w := (addPlayer w qEnt).1
  let w := (addMob w mEnt).1
  let w := handleMobHate w 3 1 10
  handleMobHate w 3 2 5

/-- Player 1 as registered in `wPre` (the object `handleHurtEntity` and
`handlePlayerVanish` receive). -/
def pFresh : Entity := (wPre.getEntityById 1).getD baseEntity

/-- State after player 1 dies/vanishes in `wPre`. -/
def wPost : World := handlePlayerVanish wPre pFresh

instance aggroSymmetricDecidable (w : World) : Decidable (aggroSymmetric w) := by
  unfold aggroSymmetric; infer_instance

/-- Mob of a kind that has no entry in the Properties table. -/
def mobUnknownKind : Entity :=
  { baseEntity with id := 4, etype := EType.mob, kind := "griffin" }

/-- Mob whose Properties entry has no drops table. -/
def mobNoLoot : Entity :=
  { baseEntity with id := 5, etype := EType.mob, kind := "noloot" }

/-- Kind of the item dropped for mob kind `"rat"` in `w0` at draw `v`
(`none` both when nothing drops and — unreachable for this registered
kind — on an exception). -/
def droppedKind (v : Nat) : Option String :=
  match getDroppedItem w0 mEnt v with
  | Except.ok r => r.2.map Entity.kind
  | Except.error _ => none

/-- Mob 3 of `wPre` at the moment combat brings it to 0 hit points. -/
def mDying : Entity := { (wPre.getEntityById 3).getD baseEntity with hitPoints := 0 }

/-- `wPre` with the dying mob's hit points written back (the combat code
mutates the shared object before calling `handleHurtEntity`). -/
def wHurtIn : World := wPre.setEntity mDying

/-- World with only player 1 entered (its group roster is `[1]`, so the
relevant entity list for player 1 is empty). -/
def wP1 : World := (addPlayer w0 pEnt).1

/-- Player 1 as registered in `wP1`. -/
def pW : Entity := (wP1.getEntityById 1).getD baseEntity

/-- Three-group corridor map: `g1 – g2 – g3`, each group adjacent to its
neighbours and itself; positions with `x < 10` lie in `g1`, `x < 20` in
`g2`, the rest in `g3`. -/
def map3 : GameMap where
  groupIds := ["g1", "g2", "g3"]
  adjacent := fun g =>
    if g = "g1" then ["g1", "g2"]
    else if g = "g2" then ["g1", "g2", "g3"]
    else if g = "g3" then ["g2", "g3"]
    else []
  getGroupIdFromPosition := fun x _ =>
    if x < 10 then "g1" else if x < 20 then "g2" else "g3"

/-- Fresh world over the corridor map. -/
def w3 : World :=
  { w0 with
      groups := [("g1", emptyGroup), ("g2", emptyGroup), ("g3", emptyGroup)],
      map := map3 }

/-- Mob spawned at `x = 0` (group `g1`). -/
def mob3Start : Entity :=
  { baseEntity with id := 30, etype := EType.mob, kind := "rat", hitPoints := 50 }

/-- Corridor world after the mob entered: it sits in the rosters of `g1`
and `g2`. -/
def w3a : World := (addMob w3 mob3Start).1

/-- The registered mob object as mutated by `setPosition(25, 0)` (the
`moveEntity` path), now located in `g3`. -/
def mob3Moved : Entity := { (w3a.getEntityById 30).getD baseEntity with x := 25 }

/-- Corridor world with the mob's new position written back, immediately
before `handleEntityGroupMembership` runs. -/
def w3b : World := w3a.setEntity mob3Moved

/-- The registered mob object of `w3a` (used to exercise
`pushToPreviousGroups`). -/
def mob3Reg : Entity := (w3a.getEntityById 30).getD baseEntity

/-- Entity re-added (mob respawn path) while still carrying a stale
`recentlyLeftGroups` value from an earlier transition and no group. -/
def eStale : Entity :=
  { baseEntity with
      id := 7
      etype := EType.mob
      kind := "rat"
      recentlyLeftGroups := ["h"] }

/-! Theorems settling the claims. -/

/-- C1.  The aggro-link symmetry invariant is not preserved by
`handlePlayerVanish`: in the reachable state `wPre` (built only from
`addPlayer`/`addMob`/`handleMobHate`) the symmetry holds, but after
player 1 vanishes it is violated — mob 3 is left registered in player 2's
attacker set while its `target` has been cleared to `none`, because the
second loop of `handlePlayerVanish` calls `mob.clearTarget()` on the mob
it just retargeted via `chooseMobTarget(mob, 2)`. -/
theorem claim1_aggro_symmetry_violated :
    aggroSymmetric wPre ∧ ¬ aggroSymmetric wPost := by
  constructor
  · decide
  · decide

/-- C2.  When player 1 (attacked by mob 3, whose second-most-hated player
is player 2) dies, the code does empty player 1's attacker set and leaves
no target reference to player 1 — but the surviving half of the claim
fails: mob 3 ends with `target = none` instead of referencing player 2,
while still sitting in player 2's attacker set. -/
theorem claim2_retarget_cleared :
    ((wPost.getEntityById 3).map Entity.target = some none)
    ∧ ((wPost.getEntityById 2).map Entity.attackers = some [3])
    ∧ ((wPost.getEntityById 1).map Entity.attackers = some []) := by
  refine ⟨rfl, rfl, rfl⟩

/-- C3 counterexample.  Over the table `{A: 30, B: 20}` the code's walk
accepts a draw equal to the running sum (`v <= p`), so draw 30 yields item
A — not item B as the claim states — and draw 50 yields item B — not "no
drop". -/
theorem claim3_counterexample :
    (droppedKind 30 = some "A" ∧ some "A" ≠ some "B")
    ∧ (droppedKind 50 = some "B" ∧ some "B" ≠ (none : Option String)) := by
  refine ⟨⟨rfl, by decide⟩, ⟨rfl, by decide⟩⟩

/-- C3 (amended).  Fixing the draw to 0, 29, 30, 49, 50, 99 over the table
`{A: 30, B: 20}` makes `getDroppedItem` yield A, A, A, B, B, no drop
respectively (the boundary draws 30 and 50 still win the entry whose
cumulative sum they reach, consistently with the walk rule of C4). -/
theorem claim3_loot_draws_amended :
    droppedKind 0 = some "A"
    ∧ droppedKind 29 = some "A"
    ∧ droppedKind 30 = some "A"
    ∧ droppedKind 49 = some "B"
    ∧ droppedKind 50 = some "B"
    ∧ droppedKind 99 = none := by
  refine ⟨rfl, rfl, rfl, rfl, rfl, rfl⟩

/-- C9.  A mob kind whose Properties entry has no drops table rolls "no
drop" without an exception, but a kind with no Properties entry at all
makes `getDroppedItem` evaluate `Properties[kind].drops` and raise a
`TypeError`, contradicting the spec's error-handling design
("configuration gaps ... not an exception"). -/
theorem claim9_unknown_kind_raises :
    isOkNone (getDroppedItem w0 mobNoLoot 0) = true
    ∧ isTypeError (getDroppedItem w0 mobUnknownKind 0) = true := by
  refine ⟨rfl, rfl⟩

/-- C6 counterexample.  Re-adding a mob (the respawn path calls `addMob`,
hence `updateMembership`) that still carries a stale `recentlyLeftGroups`
value and no current group is a transition with `oldGroups = []`; the
guard `size(oldGroups) > 0` skips the assignment, so afterwards the field
still holds the stale `["h"]` instead of the transition's
`oldGroups − newGroups = []`. -/
theorem claim6_counterexample :
    eStale.group = none
    ∧ (addMob w0 eStale).2.recentlyLeftGroups = ["h"]
    ∧ (["h"] : List GroupId) ≠ [] := by
  refine ⟨rfl, rfl, by decide⟩

theorem cumPct_zero (tbl : List (String × Nat)) : cumPct tbl 0 = 0 := by
  simp [cumPct]

theorem cumPct_cons (nm : String) (pct : Nat) (rest : List (String × Nat)) (k : Nat) :
    cumPct ((nm, pct) :: rest) (k + 1) = pct + cumPct rest k := by
  simp [cumPct]

/-- The loot walk wins exactly at the first index whose cumulative sum
(offset by the accumulator `p`) reaches the draw. -/
theorem dropWin_some_iff (v : Nat) :
    ∀ (tbl : List (String × Nat)) (p : Nat) (name : String),
      dropWin v p tbl = some name ↔
        ∃ i, tbl[i]?.map Prod.fst = some name
          ∧ v ≤ p + cumPct tbl (i + 1)
          ∧ ∀ j < i, p + cumPct tbl (j + 1) < v := by
  intro tbl
  induction tbl with
  | nil =>
    intro p name
    simp [dropWin]
  | cons hd rest ih =>
    intro p name
    obtain ⟨nm, pct⟩ := hd
    simp only [dropWin]
    by_cases hv : v ≤ p + pct
    · rw [if_pos hv]
      constructor
      · intro h
        refine ⟨0, by simpa using h, ?_, ?_⟩
        · rw [cumPct_cons, cumPct_zero]
          omega
        · intro j hj
          exact absurd hj (Nat.not_lt_zero j)
      · rintro ⟨i, hi, hcum, hmin⟩
        cases i with
        | zero =>
          simp at hi
          rw [hi]
        | succ i' =>
          have h0 := hmin 0 (Nat.succ_pos i')
          rw [cumPct_cons, cumPct_zero] at h0
          omega
    · rw [if_neg hv]
      rw [ih (p + pct) name]
      constructor
      · rintro ⟨i, hi, hcum, hmin⟩
        refine ⟨i + 1, by simpa using hi, ?_, ?_⟩
        · rw [cumPct_cons]
          omega
        · intro j hj
          cases j with
          | zero =>
            rw [cumPct_cons, cumPct_zero]
            omega
          | succ j' =>
            have := hmin j' (Nat.lt_of_succ_lt_succ hj)
            rw [cumPct_cons]
            omega
      · rintro ⟨i, hi, hcum, hmin⟩
        cases i with
        | zero =>
          rw [cumPct_cons, cumPct_zero] at hcum
          omega
        | succ i' =>
          refine ⟨i', by simpa using hi, ?_, ?_⟩
          · rw [cumPct_cons] at hcum
            omega
          · intro j hj
            have := hmin (j + 1) (Nat.succ_lt_succ hj)
            rw [cumPct_cons] at this
            omega

/-- A draw beyond the accumulated total wins nothing. -/
theorem dropWin_none_of_total_lt (v : Nat) :
    ∀ (tbl : List (String × Nat)) (p : Nat),
      p + (tbl.map Prod.snd).sum < v → dropWin v p tbl = none := by
  intro tbl
  induction tbl with
  | nil =>
    intro p _
    rfl
  | cons hd rest ih =>
    intro p h
    obtain ⟨nm, pct⟩ := hd
    simp only [List.map_cons, List.sum_cons] at h
    simp only [dropWin]
    rw [if_neg (by omega)]
    exact ih (p + pct) (by omega)

theorem removeFromGroups_entity_proj (w : World) (e : Entity) :
    ((removeFromGroups w e).2.1).kind = e.kind ∧ ((removeFromGroups w e).2.1).id = e.id := by
  unfold removeFromGroups
  cases e.group with
  | none => exact ⟨rfl, rfl⟩
  | some g =>
    by_cases h : g = "" <;> simp [h]

theorem addToGroup_entity_proj (w : World) (e : Entity) (g : GroupId) :
    ((addToGroup w e g).2.1).kind = e.kind ∧ ((addToGroup w e g).2.1).id = e.id := by
  unfold addToGroup
  split
  · exact ⟨rfl, rfl⟩
  · exact ⟨rfl, rfl⟩

theorem hEGM_entity_proj (w : World) (e : Entity) :
    ((handleEntityGroupMembership w e).2.1).kind = e.kind
    ∧ ((handleEntityGroupMembership w e).2.1).id = e.id := by
  unfold handleEntityGroupMembership
  dsimp only
  split
  · split
    · constructor
      · dsimp only
        rw [(addToGroup_entity_proj _ _ _).1, (removeFromGroups_entity_proj _ _).1]
      · dsimp only
        rw [(addToGroup_entity_proj _ _ _).2, (removeFromGroups_entity_proj _ _).2]
    · constructor
      · rw [(addToGroup_entity_proj _ _ _).1, (removeFromGroups_entity_proj _ _).1]
      · rw [(addToGroup_entity_proj _ _ _).2, (removeFromGroups_entity_proj _ _).2]
  · exact ⟨rfl, rfl⟩

theorem addItem_entity_proj (w : World) (it : Entity) :
    ((addItem w it).2).kind = it.kind ∧ ((addItem w it).2).id = it.id := by
  unfold addItem addEntity
  exact hEGM_entity_proj _ it

/-- C4.  The loot roll is a deterministic function of the draw and the
table: the winner of the code's walk (`dropWin`, reached from
`getDroppedItem`) is exactly the first entry whose cumulative percentage
is ≥ the draw; a draw exceeding the total accumulated sum drops nothing;
and for any mob kind registered in Properties, `getDroppedItem` succeeds
and drops an item of exactly the winning kind. -/
theorem claim4_loot_roll_deterministic :
    ∀ (v : Nat) (tbl : List (String × Nat)),
      (∀ name : String,
        dropWin v 0 tbl = some name ↔
          ∃ i, tbl[i]?.map Prod.fst = some name
            ∧ v ≤ cumPct tbl (i + 1)
            ∧ ∀ j < i, cumPct tbl (j + 1) < v)
      ∧ ((tbl.map Prod.snd).sum < v → dropWin v 0 tbl = none)
      ∧ (∀ (w : World) (mob : Entity) (pr : PropEntry),
          lookupA w.properties mob.kind = some pr →
          ∃ (w' : World) (it : Option Entity),
            getDroppedItem w mob v = Except.ok (w', it)
            ∧ it.map Entity.kind = dropWin v 0 (pr.drops.getD [])) := by
  intro v tbl
  refine ⟨?_, ?_, ?_⟩
  · intro name
    simpa using dropWin_some_iff v tbl 0 name
  · intro h
    exact dropWin_none_of_total_lt v tbl 0 (by omega)
  · intro w mob pr hpr
    cases hdw : dropWin v 0 (pr.drops.getD []) with
    | none =>
      refine ⟨w, none, ?_, by simp [hdw]⟩
      simp [getDroppedItem, hpr, hdw]
    | some nm =>
      refine ⟨(addItem (createItem w nm mob.x mob.y).1 (createItem w nm mob.x mob.y).2).1,
        some (addItem (createItem w nm mob.x mob.y).1 (createItem w nm mob.x mob.y).2).2,
        ?_, ?_⟩
      · simp [getDroppedItem, hpr, hdw]
      · show some ((addItem (createItem w nm mob.x mob.y).1
            (createItem w nm mob.x mob.y).2).2.kind) = some nm
        rw [(addItem_entity_proj _ _).1]
        rfl

/-- C4 witness: at draw 55 over `{A: 30, B: 20}` the total 50 is exceeded,
so nothing drops, and `getDroppedItem` for the registered kind `"rat"`
agrees (no exception, no item). -/
theorem claim4_witness :
    dropWin 55 0 [("A", 30), ("B", 20)] = none ∧ droppedKind 55 = none := by
  refine ⟨(claim4_loot_roll_deterministic 55 [("A", 30), ("B", 20)]).2.1 (by decide), ?_⟩
  obtain ⟨w', it, heq, hkind⟩ :=
    (claim4_loot_roll_deterministic 55 [("A", 30), ("B", 20)]).2.2 w0 mEnt
      { drops := some [("A", 30), ("B", 20)] } rfl
  have hnone : dropWin 55 0 ((some [("A", 30), ("B", 20)] : Option (List (String × Nat))).getD [])
      = none := by decide
  unfold droppedKind
  rw [heq]
  show Option.map Entity.kind it = none
  rw [hkind]
  exact hnone

theorem pushToPlayer_queues_keys (w : World) (pe : Option Entity) (m : Msg) :
    (pushToPlayer w pe m).outgoingQueues.map Prod.fst = w.outgoingQueues.map Prod.fst := by
  unfold pushToPlayer
  cases pe with
  | none => rfl
  | some p =>
    by_cases h : (lookupA w.outgoingQueues p.id).isSome
    · simp only [if_pos h]
      exact keys_updateA _ _ _
    · simp only [if_neg h]

theorem pushToPlayer_lookup_self (w : World) (p : Entity) (m : Msg) (q : List Msg)
    (h : lookupA w.outgoingQueues p.id = some q) :
    lookupA (pushToPlayer w (some p) m).outgoingQueues p.id = some (q ++ [m]) := by
  unfold pushToPlayer
  dsimp only
  rw [if_pos (by simp [h])]
  simp [lookupA_updateA, h, Msg.serialize]

theorem foldl_pushToPlayer_keys (p : Entity) (msgs : List Msg) :
    ∀ (w : World),
      ((msgs.foldl (fun w m => pushToPlayer w (some p) m) w)).outgoingQueues.map Prod.fst
        = w.outgoingQueues.map Prod.fst := by
  induction msgs with
  | nil => intro w; rfl
  | cons m rest ih =>
    intro w
    rw [List.foldl_cons, ih, pushToPlayer_queues_keys]

theorem foldl_pushToPlayer_lookup (p : Entity) (msgs : List Msg) :
    ∀ (w : World) (q : List Msg),
      lookupA w.outgoingQueues p.id = some q →
      lookupA ((msgs.foldl (fun w m => pushToPlayer w (some p) m) w)).outgoingQueues p.id
        = some (q ++ msgs) := by
  induction msgs with
  | nil => intro w q h; simpa using h
  | cons m rest ih =>
    intro w q h
    rw [List.foldl_cons]
    have := ih (pushToPlayer w (some p) m) (q ++ [m]) (pushToPlayer_lookup_self w p m q h)
    simpa using this

theorem processQueuesAux_keys (l : List (EntityId × List Msg)) :
    (processQueuesAux l).1.map Prod.fst = l.map Prod.fst := by
  induction l with
  | nil => rfl
  | cons kv rest ih =>
    obtain ⟨id, q⟩ := kv
    by_cases h : q.length > 0 <;> simp [processQueuesAux, h, ih]

theorem processQueuesAux_filter_nil (l : List (EntityId × List Msg)) (pid : EntityId)
    (h : pid ∉ l.map Prod.fst) :
    (processQueuesAux l).2.filter (fun c => decide (c.1 = pid)) = [] := by
  induction l with
  | nil => rfl
  | cons kv rest ih =>
    obtain ⟨id, q⟩ := kv
    simp only [List.map_cons, List.mem_cons, not_or] at h
    have hid : ¬ (id = pid) := fun he => h.1 he.symm
    by_cases hq : q.length > 0 <;> simp [processQueuesAux, hq, hid, ih h.2]

theorem processQueuesAux_spec (l : List (EntityId × List Msg)) (pid : EntityId)
    (q : List Msg) (hnd : (l.map Prod.fst).Nodup) (h : lookupA l pid = some q) :
    ((processQueuesAux l).2.filter (fun c => decide (c.1 = pid))
        = if q.length > 0 then [(pid, q)] else [])
    ∧ lookupA (processQueuesAux l).1 pid = some (if q.length > 0 then [] else q) := by
  induction l with
  | nil => simp [lookupA] at h
  | cons kv rest ih =>
    obtain ⟨id, q0⟩ := kv
    simp only [List.map_cons, List.nodup_cons] at hnd
    by_cases hid : id = pid
    · subst hid
      have h' : q0 = q := by simpa [lookupA] using h
      subst h'
      by_cases hq : q0.length > 0
      · constructor
        · simp [processQueuesAux, hq, processQueuesAux_filter_nil rest id hnd.1]
        · simp [processQueuesAux, hq, lookupA]
      · constructor
        · simp [processQueuesAux, hq, processQueuesAux_filter_nil rest id hnd.1]
        · simp [processQueuesAux, hq, lookupA]
    · simp only [lookupA, if_neg hid] at h
      have := ih hnd.2 h
      by_cases hq : q0.length > 0
      · simp only [processQueuesAux, if_pos hq]
        constructor
        · simp only [List.filter_cons]
          rw [if_neg (by simpa using hid)]
          exact this.1
        · simp only [lookupA, if_neg hid]
          exact this.2
      · simp only [processQueuesAux, if_neg hq]
        constructor
        · exact this.1
        · simp only [lookupA, if_neg hid]
          exact this.2

/-- C8.  Starting from a freshly flushed queue, pushing `msgs` to a player
via `pushToPlayer` and then flushing hands the transport exactly one batch
for that player — containing exactly those serialized messages in push
order — and leaves the player's queue empty; with no pushed messages no
batch is handed over for that player. -/
theorem claim8_flush_queues :
    ∀ (w : World) (p : Entity) (msgs : List Msg),
      (w.outgoingQueues.map Prod.fst).Nodup →
      lookupA w.outgoingQueues p.id = some [] →
      ((processQueues (msgs.foldl (fun w m => pushToPlayer w (some p) m) w)).2.filter
          (fun c => decide (c.1 = p.id)) = if msgs.length > 0 then [(p.id, msgs)] else [])
      ∧ lookupA (processQueues
          (msgs.foldl (fun w m => pushToPlayer w (some p) m) w)).1.outgoingQueues p.id
          = some [] := by
  intro w p msgs hnd hq
  have hkeys := foldl_pushToPlayer_keys p msgs w
  have hlook := foldl_pushToPlayer_lookup p msgs w [] hq
  simp only [List.nil_append] at hlook
  have hspec := processQueuesAux_spec
    ((msgs.foldl (fun w m => pushToPlayer w (some p) m) w)).outgoingQueues p.id msgs
    (by rw [hkeys]; exact hnd) hlook
  constructor
  · exact hspec.1
  · have h2 := hspec.2
    cases msgs with
    | nil => simpa using h2
    | cons m rest => simpa using h2

/-- C8 witness: player 1 enters `w0`, two messages are pushed, one batch
`[population 1, move 3]` is flushed and the queue is empty afterwards. -/
theorem claim8_witness :
    ((processQueues ([Msg.population 1, Msg.move 3].foldl
        (fun w m => pushToPlayer w (some pEnt) m) (addPlayer w0 pEnt).1)).2.filter
        (fun c => decide (c.1 = pEnt.id))
      = if ([Msg.population 1, Msg.move 3] : List Msg).length > 0
          then [(pEnt.id, [Msg.population 1, Msg.move 3])] else [])
    ∧ lookupA (processQueues ([Msg.population 1, Msg.move 3].foldl
        (fun w m => pushToPlayer w (some pEnt) m) (addPlayer w0 pEnt).1)).1.outgoingQueues
        pEnt.id = some [] :=
  claim8_flush_queues (addPlayer w0 pEnt).1 pEnt [Msg.population 1, Msg.move 3]
    (by decide) (by decide)

/-- C10.  For a player whose current group exists in the zone group table
and who has an outgoing queue, `pushRelevantEntityListTo` enqueues exactly
one entity-list message whose ids are the roster of the player's own group
without the player's own id; no non-emptiness is required (the JS guard
`if (entities)` tests an array and always passes), so the message is sent
even when the filtered set is empty. -/
theorem claim10_relevant_entity_list :
    ∀ (w : World) (p : Entity) (g : GroupId) (grp : Group) (q0 : List Msg),
      p.group = some g →
      lookupA w.groups g = some grp →
      lookupA w.outgoingQueues p.id = some q0 →
      lookupA (pushRelevantEntityListTo w (some p)).outgoingQueues p.id
        = some (q0 ++ [Msg.list (grp.entities.filter (fun id => !(id = p.id)))])
      ∧ ∀ i, (i ∈ grp.entities.filter (fun id => !(id = p.id))
              ↔ (i ∈ grp.entities ∧ i ≠ p.id)) := by
  intro w p g grp q0 hgroup hgrp hq
  constructor
  · unfold pushRelevantEntityListTo
    dsimp only
    rw [hgroup]
    dsimp only
    rw [hgrp]
    exact pushToPlayer_lookup_self w p _ q0 hq
  · intro i
    simp [List.mem_filter]

/-- C10 witness: in `wP1` player 1's own group roster is exactly `[1]`, so
the enqueued list message carries the empty id list — and it is enqueued
nevertheless. -/
theorem claim10_witness :
    lookupA (pushRelevantEntityListTo wP1 (some pW)).outgoingQueues pW.id
      = some ([] ++ [Msg.list (([1] : List EntityId).filter (fun id => !(id = pW.id)))]) :=
  (claim10_relevant_entity_list wP1 pW "g"
    { entities := [1], players := [1], incoming := [1] } []
    (by decide) (by decide) (by decide)).1

theorem lookupA_isSome_iff {κ ν : Type} [DecidableEq κ] (l : List (κ × ν)) (k : κ) :
    (lookupA l k).isSome ↔ k ∈ l.map Prod.fst := by
  induction l with
  | nil => simp [lookupA]
  | cons kv rest ih =>
    by_cases h : kv.1 = k
    · simp [lookupA, h]
    · simp [lookupA, h, ih]
      intro he
      exact absurd he.symm h

theorem updateGroup_lookup (w : World) (g : GroupId) (f : Group → Group) (g' : GroupId) :
    lookupA (updateGroup w g f).groups g' =
      if g' = g then (lookupA w.groups g').map f else lookupA w.groups g' :=
  lookupA_updateA w.groups g g' f

theorem updateGroup_keys (w : World) (g : GroupId) (f : Group → Group) :
    (updateGroup w g f).groups.map Prod.fst = w.groups.map Prod.fst :=
  keys_updateA w.groups g f

theorem incomingLoop_roster (eid : EntityId) (keep : Bool) :
    ∀ (l : List GroupId) (w : World) (g' : GroupId),
      (lookupA (incomingLoop eid keep w l).groups g').map Group.entities
        = (lookupA w.groups g').map Group.entities := by
  intro l
  induction l with
  | nil => intro w g'; rfl
  | cons gid rest ih =>
    intro w g'
    show (lookupA (incomingLoop eid keep _ rest).groups g').map Group.entities = _
    rw [ih]
    cases hl : lookupA w.groups gid with
    | none => simp [hl]
    | some grp =>
      by_cases hk : keep
      · simp only [hl, hk, if_pos]
        rw [updateGroup_lookup]
        by_cases hg : g' = gid <;> simp [hg, hl]
      · simp [hl, hk]

theorem incomingLoop_keys (eid : EntityId) (keep : Bool) :
    ∀ (l : List GroupId) (w : World),
      (incomingLoop eid keep w l).groups.map Prod.fst = w.groups.map Prod.fst := by
  intro l
  induction l with
  | nil => intro w; rfl
  | cons gid rest ih =>
    intro w
    show (incomingLoop eid keep _ rest).groups.map Prod.fst = _
    rw [ih]
    cases hl : lookupA w.groups gid with
    | none => simp [hl]
    | some grp =>
      by_cases hk : keep
      · simp [hl, hk, updateGroup_keys]
      · simp [hl, hk]

theorem incomingLoop_frame (eid : EntityId) (keep : Bool) :
    ∀ (l : List GroupId) (w : World),
      (incomingLoop eid keep w l).entities = w.entities
      ∧ (incomingLoop eid keep w l).outgoingQueues = w.outgoingQueues
      ∧ (incomingLoop eid keep w l).map = w.map
      ∧ (incomingLoop eid keep w l).properties = w.properties
      ∧ (incomingLoop eid keep w l).itemCount = w.itemCount := by
  intro l
  induction l with
  | nil => intro w; exact ⟨rfl, rfl, rfl, rfl, rfl⟩
  | cons gid rest ih =>
    intro w
    have step := ih (match lookupA w.groups gid with
      | some _ => if keep then
          updateGroup w gid (fun g => { g with incoming := g.incoming ++ [eid] })
        else w
      | none => w)
    cases hl : lookupA w.groups gid with
    | none =>
      simpa [incomingLoop, hl] using ih w
    | some grp =>
      by_cases hk : keep
      · simpa [incomingLoop, hl, hk, updateGroup] using
          ih (updateGroup w gid (fun g => { g with incoming := g.incoming ++ [eid] }))
      · simpa [incomingLoop, hl, hk] using ih w

theorem removeLoop_cons_none (eid : EntityId) (w : World) (gid : GroupId)
    (rest : List GroupId) (hl : lookupA w.groups gid = none) :
    removeLoop eid w (gid :: rest) = removeLoop eid w rest := by
  simp [removeLoop, hl]

theorem removeLoop_cons_skip (eid : EntityId) (w : World) (gid : GroupId)
    (rest : List GroupId) (grp : Group) (hl : lookupA w.groups gid = some grp)
    (hm : eid ∉ grp.entities) :
    removeLoop eid w (gid :: rest) = removeLoop eid w rest := by
  simp [removeLoop, hl, hm]

theorem removeLoop_cons_hit (eid : EntityId) (w : World) (gid : GroupId)
    (rest : List GroupId) (grp : Group) (hl : lookupA w.groups gid = some grp)
    (hm : eid ∈ grp.entities) :
    removeLoop eid w (gid :: rest) =
      ((removeLoop eid (updateGroup w gid
          (fun g => { g with entities := g.entities.filter (fun i => !(i = eid)) })) rest).1,
       gid :: (removeLoop eid (updateGroup w gid
          (fun g => { g with entities := g.entities.filter (fun i => !(i = eid)) })) rest).2) := by
  simp [removeLoop, hl, hm]

theorem removeLoop_frame (eid : EntityId) :
    ∀ (l : List GroupId) (w : World),
      (removeLoop eid w l).1.entities = w.entities
      ∧ (removeLoop eid w l).1.outgoingQueues = w.outgoingQueues
      ∧ (removeLoop eid w l).1.map = w.map
      ∧ (removeLoop eid w l).1.properties = w.properties
      ∧ (removeLoop eid w l).1.itemCount = w.itemCount := by
  intro l
  induction l with
  | nil => intro w; exact ⟨rfl, rfl, rfl, rfl, rfl⟩
  | cons gid rest ih =>
    intro w
    cases hl : lookupA w.groups gid with
    | none => simpa [removeLoop, hl] using ih w
    | some grp =>
      by_cases hm : eid ∈ grp.entities
      · simpa [removeLoop, hl, hm, updateGroup] using
          ih (updateGroup w gid
            (fun g => { g with entities := g.entities.filter (fun i => !(i = eid)) }))
      · simpa [removeLoop, hl, hm] using ih w

theorem removeLoop_keys (eid : EntityId) :
    ∀ (l : List GroupId) (w : World),
      (removeLoop eid w l).1.groups.map Prod.fst = w.groups.map Prod.fst := by
  intro l
  induction l with
  | nil => intro w; rfl
  | cons gid rest ih =>
    intro w
    cases hl : lookupA w.groups gid with
    | none => simpa [removeLoop, hl] using ih w
    | some grp =>
      by_cases hm : eid ∈ grp.entities
      · have := ih (updateGroup w gid
          (fun g => { g with entities := g.entities.filter (fun i => !(i = eid)) }))
        simpa [removeLoop, hl, hm, updateGroup_keys] using this
      · simpa [removeLoop, hl, hm] using ih w

theorem removeLoop_lookup_not_mem (eid : EntityId) :
    ∀ (l : List GroupId) (w : World) (g' : GroupId), g' ∉ l →
      lookupA (removeLoop eid w l).1.groups g' = lookupA w.groups g' := by
  intro l
  induction l with
  | nil => intro w g' _; rfl
  | cons gid rest ih =>
    intro w g' hg
    simp only [List.mem_cons, not_or] at hg
    cases hl : lookupA w.groups gid with
    | none => simpa [removeLoop, hl] using ih w g' hg.2
    | some grp =>
      by_cases hm : eid ∈ grp.entities
      · have h2 := ih (updateGroup w gid
          (fun g => { g with entities := g.entities.filter (fun i => !(i = eid)) })) g' hg.2
        rw [updateGroup_lookup, if_neg hg.1] at h2
        simpa [removeLoop, hl, hm] using h2
      · simpa [removeLoop, hl, hm] using ih w g' hg.2

theorem removeLoop_preserves_absent (eid : EntityId) :
    ∀ (l : List GroupId) (w : World) (g' : GroupId),
      (∀ grp, lookupA w.groups g' = some grp → eid ∉ grp.entities) →
      ∀ grp, lookupA (removeLoop eid w l).1.groups g' = some grp → eid ∉ grp.entities := by
  intro l
  induction l with
  | nil => intro w g' h; exact h
  | cons gid rest ih =>
    intro w g' h
    cases hl : lookupA w.groups gid with
    | none =>
      rw [removeLoop_cons_none eid w gid rest hl]
      exact ih w g' h
    | some grp =>
      by_cases hm : eid ∈ grp.entities
      · rw [removeLoop_cons_hit eid w gid rest grp hl hm]
        refine ih _ g' ?_
        intro grp2 hlook
        rw [updateGroup_lookup] at hlook
        by_cases hg : g' = gid
        · rw [if_pos hg] at hlook
          cases hlk : lookupA w.groups g' with
          | none => rw [hlk] at hlook; simp at hlook
          | some grp0 =>
            rw [hlk] at hlook
            simp at hlook
            subst hlook
            simp
        · rw [if_neg hg] at hlook
          exact h grp2 hlook
      · rw [removeLoop_cons_skip eid w gid rest grp hl hm]
        exact ih w g' h

theorem removeLoop_absent_of_mem (eid : EntityId) :
    ∀ (l : List GroupId) (w : World) (g' : GroupId), g' ∈ l →
      ∀ grp, lookupA (removeLoop eid w l).1.groups g' = some grp → eid ∉ grp.entities := by
  intro l
  induction l with
  | nil => intro w g' hg; exact absurd hg (List.not_mem_nil g')
  | cons gid rest ih =>
    intro w g' hg
    rcases List.mem_cons.mp hg with hg1 | hg2
    · subst hg1
      cases hl : lookupA w.groups g' with
      | none =>
        intro grp hlook
        rw [removeLoop_cons_none eid w g' rest hl] at hlook
        by_cases hmem : g' ∈ rest
        · exact ih w g' hmem grp hlook
        · rw [removeLoop_lookup_not_mem eid rest w g' hmem, hl] at hlook
          exact absurd hlook (by simp)
      | some grp =>
        by_cases hm : eid ∈ grp.entities
        · intro grp2 hlook
          rw [removeLoop_cons_hit eid w g' rest grp hl hm] at hlook
          refine removeLoop_preserves_absent eid rest _ g' ?_ grp2 hlook
          intro grp3 hlook3
          rw [updateGroup_lookup, if_pos rfl, hl] at hlook3
          simp at hlook3
          subst hlook3
          simp
        · intro grp2 hlook
          rw [removeLoop_cons_skip eid w g' rest grp hl hm] at hlook
          refine removeLoop_preserves_absent eid rest w g' ?_ grp2 hlook
          intro grp3 hlook3
          rw [hl] at hlook3
          cases hlook3
          exact hm
    · intro grp2 hlook
      cases hl : lookupA w.groups gid with
      | none =>
        rw [removeLoop_cons_none eid w gid rest hl] at hlook
        exact ih w g' hg2 grp2 hlook
      | some grp =>
        by_cases hm : eid ∈ grp.entities
        · rw [removeLoop_cons_hit eid w gid rest grp hl hm] at hlook
          exact ih _ g' hg2 grp2 hlook
        · rw [removeLoop_cons_skip eid w gid rest grp hl hm] at hlook
          exact ih w g' hg2 grp2 hlook

theorem rosterHasB_congr (w1 w2 : World) (g : GroupId) (eid : EntityId)
    (h : (lookupA w1.groups g).map Group.entities = (lookupA w2.groups g).map Group.entities) :
    rosterHasB w1 g eid = rosterHasB w2 g eid := by
  unfold rosterHasB
  cases h1 : lookupA w1.groups g with
  | none =>
    rw [h1] at h
    cases h2 : lookupA w2.groups g with
    | none => rfl
    | some grp2 => rw [h2] at h; simp at h
  | some grp1 =>
    rw [h1] at h
    cases h2 : lookupA w2.groups g with
    | none => rw [h2] at h; simp at h
    | some grp2 =>
      rw [h2] at h
      simp at h
      show decide (eid ∈ grp1.entities) = decide (eid ∈ grp2.entities)
      rw [h]

theorem removeLoop_collected (eid : EntityId) :
    ∀ (l : List GroupId) (w : World), l.Nodup →
      (removeLoop eid w l).2 = l.filter (fun g => rosterHasB w g eid) := by
  intro l
  induction l with
  | nil => intro w _; rfl
  | cons gid rest ih =>
    intro w hnd
    rw [List.nodup_cons] at hnd
    cases hl : lookupA w.groups gid with
    | none =>
      rw [removeLoop_cons_none eid w gid rest hl]
      have hb : rosterHasB w gid eid = false := by unfold rosterHasB; rw [hl]
      rw [List.filter_cons_of_neg (by simp [hb])]
      exact ih w hnd.2
    | some grp =>
      by_cases hm : eid ∈ grp.entities
      · rw [removeLoop_cons_hit eid w gid rest grp hl hm]
        have hb : rosterHasB w gid eid = true := by
          unfold rosterHasB; rw [hl]; simpa using hm
        rw [List.filter_cons_of_pos (by simp [hb])]
        have hrest := ih (updateGroup w gid
          (fun g => { g with entities := g.entities.filter (fun i => !(i = eid)) })) hnd.2
        rw [hrest]
        have hcg : ∀ g ∈ rest,
            rosterHasB (updateGroup w gid
              (fun g => { g with entities := g.entities.filter (fun i => !(i = eid)) })) g eid
            = rosterHasB w g eid := by
          intro g hg
          have hne : ¬ g = gid := fun he => hnd.1 (he ▸ hg)
          refine rosterHasB_congr _ _ g eid ?_
          rw [updateGroup_lookup, if_neg hne]
        exact congrArg (fun t => gid :: t) (List.filter_congr hcg)
      · rw [removeLoop_cons_skip eid w gid rest grp hl hm]
        have hb : rosterHasB w gid eid = false := by
          unfold rosterHasB; rw [hl]; simpa using hm
        rw [List.filter_cons_of_neg (by simp [hb])]
        exact ih w hnd.2

theorem addLoop_cons (eid : EntityId) (w : World) (gid : GroupId) (rest : List GroupId) :
    addLoop eid w (gid :: rest) =
      ((addLoop eid (updateGroup w gid
          (fun g => { g with entities := insertId g.entities eid })) rest).1,
       gid :: (addLoop eid (updateGroup w gid
          (fun g => { g with entities := insertId g.entities eid })) rest).2) := by
  simp [addLoop]

theorem addLoop_collected (eid : EntityId) :
    ∀ (l : List GroupId) (w : World), (addLoop eid w l).2 = l := by
  intro l
  induction l with
  | nil => intro w; rfl
  | cons gid rest ih =>
    intro w
    rw [addLoop_cons]
    simp [ih]

theorem addLoop_frame (eid : EntityId) :
    ∀ (l : List GroupId) (w : World),
      (addLoop eid w l).1.entities = w.entities
      ∧ (addLoop eid w l).1.outgoingQueues = w.outgoingQueues
      ∧ (addLoop eid w l).1.map = w.map
      ∧ (addLoop eid w l).1.properties = w.properties
      ∧ (addLoop eid w l).1.itemCount = w.itemCount := by
  intro l
  induction l with
  | nil => intro w; exact ⟨rfl, rfl, rfl, rfl, rfl⟩
  | cons gid rest ih =>
    intro w
    rw [addLoop_cons]
    exact ih _

theorem addLoop_keys (eid : EntityId) :
    ∀ (l : List GroupId) (w : World),
      (addLoop eid w l).1.groups.map Prod.fst = w.groups.map Prod.fst := by
  intro l
  induction l with
  | nil => intro w; rfl
  | cons gid rest ih =>
    intro w
    rw [addLoop_cons]
    show (addLoop eid _ rest).1.groups.map Prod.fst = _
    rw [ih, updateGroup_keys]

theorem addLoop_lookup_not_mem (eid : EntityId) :
    ∀ (l : List GroupId) (w : World) (g' : GroupId), g' ∉ l →
      lookupA (addLoop eid w l).1.groups g' = lookupA w.groups g' := by
  intro l
  induction l with
  | nil => intro w g' _; rfl
  | cons gid rest ih =>
    intro w g' hg
    simp only [List.mem_cons, not_or] at hg
    rw [addLoop_cons]
    show lookupA (addLoop eid _ rest).1.groups g' = _
    rw [ih _ g' hg.2, updateGroup_lookup, if_neg hg.1]

theorem addLoop_preserves_present (eid : EntityId) :
    ∀ (l : List GroupId) (w : World) (g' : GroupId),
      (∀ grp, lookupA w.groups g' = some grp → eid ∈ grp.entities) →
      ∀ grp, lookupA (addLoop eid w l).1.groups g' = some grp → eid ∈ grp.entities := by
  intro l
  induction l with
  | nil => intro w g' h; exact h
  | cons gid rest ih =>
    intro w g' h
    rw [addLoop_cons]
    show ∀ grp, lookupA (addLoop eid _ rest).1.groups g' = some grp → eid ∈ grp.entities
    refine ih _ g' ?_
    intro grp hlook
    rw [updateGroup_lookup] at hlook
    by_cases hg : g' = gid
    · rw [if_pos hg] at hlook
      cases hlk : lookupA w.groups g' with
      | none => rw [hlk] at hlook; simp at hlook
      | some grp0 =>
        rw [hlk] at hlook
        simp at hlook
        subst hlook
        show eid ∈ insertId grp0.entities eid
        unfold insertId
        by_cases hin : eid ∈ grp0.entities
        · rw [if_pos (by simpa using hin)]
          exact hin
        · rw [if_neg (by simpa using hin)]
          simp
    · rw [if_neg hg] at hlook
      exact h grp hlook

theorem addLoop_present_of_mem (eid : EntityId) :
    ∀ (l : List GroupId) (w : World) (g' : GroupId), g' ∈ l →
      ∀ grp, lookupA (addLoop eid w l).1.groups g' = some grp → eid ∈ grp.entities := by
  intro l
  induction l with
  | nil => intro w g' hg; exact absurd hg (List.not_mem_nil g')
  | cons gid rest ih =>
    intro w g' hg
    rcases List.mem_cons.mp hg with hg1 | hg2
    · subst hg1
      rw [addLoop_cons]
      show ∀ grp, lookupA (addLoop eid _ rest).1.groups g' = some grp → eid ∈ grp.entities
      refine addLoop_preserves_present eid rest _ g' ?_
      intro grp hlook
      rw [updateGroup_lookup, if_pos rfl] at hlook
      cases hlk : lookupA w.groups g' with
      | none => rw [hlk] at hlook; simp at hlook
      | some grp0 =>
        rw [hlk] at hlook
        simp at hlook
        subst hlook
        show eid ∈ insertId grp0.entities eid
        unfold insertId
        by_cases hin : eid ∈ grp0.entities
        · rw [if_pos (by simpa using hin)]
          exact hin
        · rw [if_neg (by simpa using hin)]
          simp
    · rw [addLoop_cons]
      exact ih _ g' hg2

theorem present_of_roster_proj_eq (w2 w3 : World) (g' : GroupId) (eid : EntityId)
    (hproj : (lookupA w3.groups g').map Group.entities
      = (lookupA w2.groups g').map Group.entities)
    (h : ∀ grp, lookupA w2.groups g' = some grp → eid ∈ grp.entities) :
    ∀ grp, lookupA w3.groups g' = some grp → eid ∈ grp.entities := by
  intro grp hlook
  rw [hlook] at hproj
  cases h2 : lookupA w2.groups g' with
  | none => rw [h2] at hproj; simp at hproj
  | some grp2 =>
    rw [h2] at hproj
    simp at hproj
    rw [hproj]
    exact h grp2 h2

theorem absent_of_roster_proj_eq (w2 w3 : World) (g' : GroupId) (eid : EntityId)
    (hproj : (lookupA w3.groups g').map Group.entities
      = (lookupA w2.groups g').map Group.entities)
    (h : ∀ grp, lookupA w2.groups g' = some grp → eid ∉ grp.entities) :
    ∀ grp, lookupA w3.groups g' = some grp → eid ∉ grp.entities := by
  intro grp hlook
  rw [hlook] at hproj
  cases h2 : lookupA w2.groups g' with
  | none => rw [h2] at hproj; simp at hproj
  | some grp2 =>
    rw [h2] at hproj
    simp at hproj
    rw [hproj]
    exact h grp2 h2

theorem updateGroup_roster_proj (w : World) (g : GroupId) (f : Group → Group)
    (hf : ∀ grp, (f grp).entities = grp.entities) (g' : GroupId) :
    (lookupA (updateGroup w g f).groups g').map Group.entities
      = (lookupA w.groups g').map Group.entities := by
  rw [updateGroup_lookup]
  by_cases hg : g' = g
  · rw [if_pos hg]
    cases hl : lookupA w.groups g' with
    | none => simp
    | some grp => simp [hf grp]
  · rw [if_neg hg]

theorem addAsIncoming_roster (w : World) (e : Entity) (gid : GroupId) (g' : GroupId) :
    (lookupA (addAsIncomingToGroup w e gid).groups g').map Group.entities
      = (lookupA w.groups g').map Group.entities := by
  unfold addAsIncomingToGroup
  dsimp only
  split
  · rfl
  · exact incomingLoop_roster _ _ _ w g'

theorem addAsIncoming_keys (w : World) (e : Entity) (gid : GroupId) :
    (addAsIncomingToGroup w e gid).groups.map Prod.fst = w.groups.map Prod.fst := by
  unfold addAsIncomingToGroup
  dsimp only
  split
  · rfl
  · exact incomingLoop_keys _ _ _ w

theorem addAsIncoming_frame (w : World) (e : Entity) (gid : GroupId) :
    (addAsIncomingToGroup w e gid).entities = w.entities
    ∧ (addAsIncomingToGroup w e gid).outgoingQueues = w.outgoingQueues
    ∧ (addAsIncomingToGroup w e gid).map = w.map
    ∧ (addAsIncomingToGroup w e gid).properties = w.properties
    ∧ (addAsIncomingToGroup w e gid).itemCount = w.itemCount := by
  unfold addAsIncomingToGroup
  dsimp only
  split
  · exact ⟨rfl, rfl, rfl, rfl, rfl⟩
  · exact incomingLoop_frame _ _ _ w

/-- `removeFromGroups` with a truthy old group: the entity is absent from
every group of the old halo afterwards, other groups keep their roster,
the collected list is exactly the old-halo groups that carried the entity,
and the returned entity has its group nulled. -/
theorem removeFromGroups_spec (w : World) (e : Entity) (gOld : GroupId)
    (hg : e.group = some gOld) (hne : gOld ≠ "") :
    (∀ g' ∈ w.map.adjacent gOld,
        ∀ grp, lookupA (removeFromGroups w e).1.groups g' = some grp → e.id ∉ grp.entities)
    ∧ (∀ g', g' ∉ w.map.adjacent gOld →
        (lookupA (removeFromGroups w e).1.groups g').map Group.entities
          = (lookupA w.groups g').map Group.entities)
    ∧ ((w.map.adjacent gOld).Nodup →
        (removeFromGroups w e).2.2
          = (w.map.adjacent gOld).filter (fun g => rosterHasB w g e.id))
    ∧ (removeFromGroups w e).2.1 = { e with group := none }
    ∧ (removeFromGroups w e).1.outgoingQueues = w.outgoingQueues
    ∧ (removeFromGroups w e).1.map = w.map
    ∧ (removeFromGroups w e).1.groups.map Prod.fst = w.groups.map Prod.fst := by
  unfold removeFromGroups
  rw [hg]
  dsimp only
  rw [if_neg hne]
  set w1 := if e.etype = EType.player then
      updateGroup w gOld
        (fun grp => { grp with players := grp.players.filter (fun i => !(i = e.id)) })
    else w with hw1
  have hw1roster : ∀ g', (lookupA w1.groups g').map Group.entities
      = (lookupA w.groups g').map Group.entities := by
    intro g'
    rw [hw1]
    split
    · exact updateGroup_roster_proj w gOld
        (fun grp => { grp with players := grp.players.filter (fun i => !(i = e.id)) })
        (fun grp => rfl) g'
    · rfl
  have hw1keys : w1.groups.map Prod.fst = w.groups.map Prod.fst := by
    rw [hw1]
    split
    · exact updateGroup_keys _ _ _
    · rfl
  have hw1frame : w1.outgoingQueues = w.outgoingQueues ∧ w1.map = w.map := by
    rw [hw1]
    split
    · exact ⟨rfl, rfl⟩
    · exact ⟨rfl, rfl⟩
  refine ⟨?_, ?_, ?_, rfl, ?_, ?_, ?_⟩
  · intro g' hmem grp hlook
    rw [hw1frame.2] at hlook
    exact removeLoop_absent_of_mem e.id (w.map.adjacent gOld) w1 g' hmem grp hlook
  · intro g' hmem
    show (lookupA (removeLoop e.id w1 (w1.map.adjacent gOld)).1.groups g').map Group.entities = _
    rw [hw1frame.2]
    rw [removeLoop_lookup_not_mem e.id (w.map.adjacent gOld) w1 g' hmem]
    exact hw1roster g'
  · intro hnd
    show (removeLoop e.id w1 (w1.map.adjacent gOld)).2 = _
    rw [hw1frame.2]
    rw [removeLoop_collected e.id (w.map.adjacent gOld) w1 hnd]
    refine List.filter_congr ?_
    intro g _
    exact rosterHasB_congr w1 w g e.id (hw1roster g)
  · show (World.setEntity _ _).outgoingQueues = _
    show (removeLoop e.id w1 (w1.map.adjacent gOld)).1.outgoingQueues = _
    rw [(removeLoop_frame e.id _ w1).2.1, hw1frame.1]
  · show (removeLoop e.id w1 (w1.map.adjacent gOld)).1.map = _
    rw [(removeLoop_frame e.id _ w1).2.2.1, hw1frame.2]
  · show (removeLoop e.id w1 (w1.map.adjacent gOld)).1.groups.map Prod.fst = _
    rw [removeLoop_keys e.id _ w1, hw1keys]

/-- `addToGroup` with an existing, truthy target group: the entity lands in
the roster of every group of the new halo, other rosters are untouched,
the collected list is the whole halo, and the returned entity carries the
new group. -/
theorem addToGroup_spec (w : World) (e : Entity) (gid : GroupId)
    (hgid : gid ≠ "") (hdom : (lookupA w.groups gid).isSome) :
    (∀ g' ∈ w.map.adjacent gid,
        ∀ grp, lookupA (addToGroup w e gid).1.groups g' = some grp → e.id ∈ grp.entities)
    ∧ (∀ g', g' ∉ w.map.adjacent gid →
        (lookupA (addToGroup w e gid).1.groups g').map Group.entities
          = (lookupA w.groups g').map Group.entities)
    ∧ (addToGroup w e gid).2.2 = w.map.adjacent gid
    ∧ (addToGroup w e gid).2.1 = { e with group := some gid }
    ∧ (addToGroup w e gid).1.outgoingQueues = w.outgoingQueues
    ∧ (addToGroup w e gid).1.map = w.map
    ∧ (addToGroup w e gid).1.groups.map Prod.fst = w.groups.map Prod.fst := by
  unfold addToGroup
  rw [if_pos ⟨hgid, hdom⟩]
  dsimp only
  set r := addLoop e.id w (w.map.adjacent gid) with hr
  set e2 : Entity := { e with group := some gid } with he2
  set w2 := r.1.setEntity e2 with hw2
  have hw2groups : w2.groups = r.1.groups := rfl
  set w3 := if e2.etype = EType.player then
      updateGroup w2 gid (fun grp => { grp with players := grp.players ++ [e2.id] })
    else w2 with hw3
  have hw3roster : ∀ g', (lookupA w3.groups g').map Group.entities
      = (lookupA r.1.groups g').map Group.entities := by
    intro g'
    rw [hw3]
    split
    · rw [updateGroup_roster_proj w2 gid
        (fun grp => { grp with players := grp.players ++ [e2.id] }) (fun grp => rfl) g']
      rw [hw2groups]
    · rw [hw2groups]
  have hw3keys : w3.groups.map Prod.fst = r.1.groups.map Prod.fst := by
    rw [hw3]
    split
    · rw [updateGroup_keys]
      rw [hw2groups]
    · rw [hw2groups]
  have hw3queues : w3.outgoingQueues = r.1.outgoingQueues := by
    rw [hw3]
    split
    · rfl
    · rfl
  have hw3map : w3.map = r.1.map := by
    rw [hw3]
    split
    · rfl
    · rfl
  refine ⟨?_, ?_, ?_, rfl, ?_, ?_, ?_⟩
  · intro g' hmem grp hlook
    refine present_of_roster_proj_eq r.1 w3 g' e.id (hw3roster g') ?_ grp hlook
    rw [hr]
    exact addLoop_present_of_mem e.id (w.map.adjacent gid) w g' hmem
  · intro g' hmem
    rw [hw3roster g', hr]
    rw [addLoop_lookup_not_mem e.id (w.map.adjacent gid) w g' hmem]
  · rw [hr]
    exact addLoop_collected e.id (w.map.adjacent gid) w
  · rw [hw3queues, hr]
    exact (addLoop_frame e.id (w.map.adjacent gid) w).2.1
  · rw [hw3map, hr]
    exact (addLoop_frame e.id (w.map.adjacent gid) w).2.2.1
  · rw [hw3keys, hr]
    exact addLoop_keys e.id (w.map.adjacent gid) w

theorem isSome_of_keys_eq {κ ν : Type} [DecidableEq κ] (l1 l2 : List (κ × ν)) (k : κ)
    (hk : l1.map Prod.fst = l2.map Prod.fst) (h : (lookupA l2 k).isSome = true) :
    (lookupA l1 k).isSome = true := by
  have h2 := (lookupA_isSome_iff l2 k).mp h
  exact (lookupA_isSome_iff l1 k).mpr (by rw [hk]; exact h2)

/-- Hypothesis-free frame facts of `removeFromGroups`. -/
theorem removeFromGroups_generic (w : World) (e : Entity) :
    (removeFromGroups w e).1.groups.map Prod.fst = w.groups.map Prod.fst
    ∧ (removeFromGroups w e).1.map = w.map
    ∧ (removeFromGroups w e).1.outgoingQueues = w.outgoingQueues := by
  cases hg : e.group with
  | none =>
    unfold removeFromGroups
    rw [hg]
    exact ⟨rfl, rfl, rfl⟩
  | some g =>
    by_cases hne : g = ""
    · unfold removeFromGroups
      rw [hg]
      dsimp only
      rw [if_pos hne]
      exact ⟨rfl, rfl, rfl⟩
    · have h := removeFromGroups_spec w e g hg hne
      exact ⟨h.2.2.2.2.2.2, h.2.2.2.2.2.1, h.2.2.2.2.1⟩

/-- C5.  Halo replication.  When the computed group differs from the
entity's current one (and the computed group exists and all groups of its
halo were created by `initZoneGroups`), `updateMembership` leaves the
entity's id in the roster of every group adjacent to the new group, and
removes it from every group that is adjacent to the (truthy) old group but
not to the new one; it reports the change with `true`.  When the computed
group equals the entity's current group, the call is a no-op returning the
unchanged world and `false`. -/
theorem claim5_halo_replication :
    ∀ (w : World) (e : Entity) (gNew : GroupId),
      gNew = w.map.getGroupIdFromPosition e.x e.y →
      ((e.group ≠ some gNew →
        gNew ≠ "" →
        (lookupA w.groups gNew).isSome = true →
        (∀ g' ∈ w.map.adjacent gNew, (lookupA w.groups g').isSome = true) →
        (∀ g' ∈ w.map.adjacent gNew,
            ∃ grp, lookupA (handleEntityGroupMembership w e).1.groups g' = some grp
              ∧ e.id ∈ grp.entities)
        ∧ (∀ gOld, e.group = some gOld → gOld ≠ "" →
            ∀ g' ∈ w.map.adjacent gOld, g' ∉ w.map.adjacent gNew →
            ∀ grp, lookupA (handleEntityGroupMembership w e).1.groups g' = some grp →
              e.id ∉ grp.entities)
        ∧ (handleEntityGroupMembership w e).2.2 = true)
      ∧ (e.group = some gNew → gNew ≠ "" →
          handleEntityGroupMembership w e = (w, e, false))) := by
  intro w e gNew hgNew
  constructor
  · intro hne hns hdom hdomAdj
    have hcond : jsTruthyGroup e.group = false ∨ e.group ≠ some (w.map.getGroupIdFromPosition e.x e.y) := by
      right
      rw [← hgNew]
      exact hne
    have hunfold : handleEntityGroupMembership w e =
        (let r1 := removeFromGroups (addAsIncomingToGroup w e gNew) e
         let r2 := addToGroup r1.1 r1.2.1 gNew
         if r1.2.2.length > 0 then
           (r2.1.setEntity { r2.2.1 with
              recentlyLeftGroups := r1.2.2.filter (fun g => !(r2.2.2.contains g)) },
            { r2.2.1 with
              recentlyLeftGroups := r1.2.2.filter (fun g => !(r2.2.2.contains g)) },
            true)
         else (r2.1, r2.2.1, true)) := by
      unfold handleEntityGroupMembership
      rw [if_pos hcond, ← hgNew]
    set w1 := addAsIncomingToGroup w e gNew with hw1
    set r1 := removeFromGroups w1 e with hr1
    set r2 := addToGroup r1.1 r1.2.1 gNew with hr2
    have hw1keys : w1.groups.map Prod.fst = w.groups.map Prod.fst := addAsIncoming_keys w e gNew
    have hw1map : w1.map = w.map := (addAsIncoming_frame w e gNew).2.2.1
    have hr1gen := removeFromGroups_generic w1 e
    have hr1keys : r1.1.groups.map Prod.fst = w.groups.map Prod.fst := by
      rw [hr1gen.1, hw1keys]
    have hr1map : r1.1.map = w.map := by rw [hr1gen.2.1, hw1map]
    have hr1id : r1.2.1.id = e.id := (removeFromGroups_entity_proj w1 e).2
    have hdom2 : (lookupA r1.1.groups gNew).isSome = true :=
      isSome_of_keys_eq r1.1.groups w.groups gNew hr1keys hdom
    have hadd := addToGroup_spec r1.1 r1.2.1 gNew hns hdom2
    have hr2keys : r2.1.groups.map Prod.fst = w.groups.map Prod.fst := by
      show (addToGroup r1.1 r1.2.1 gNew).1.groups.map Prod.fst = _
      rw [hadd.2.2.2.2.2.2, hr1keys]
    have hadj2 : r1.1.map.adjacent gNew = w.map.adjacent gNew := by rw [hr1map]
    have hfinal_groups : (handleEntityGroupMembership w e).1.groups = r2.1.groups := by
      rw [hunfold]
      dsimp only
      split
      · rfl
      · rfl
    have hfinal_flag : (handleEntityGroupMembership w e).2.2 = true := by
      rw [hunfold]
      dsimp only
      split
      · rfl
      · rfl
    refine ⟨?_, ?_, hfinal_flag⟩
    · intro g' hmem
      have hpres : ∀ grp, lookupA r2.1.groups g' = some grp → r1.2.1.id ∈ grp.entities := by
        have := hadd.1
        rw [hadj2] at this
        exact fun grp hl => this g' hmem grp hl
      have hdomg : (lookupA r2.1.groups g').isSome = true :=
        isSome_of_keys_eq r2.1.groups w.groups g' hr2keys (hdomAdj g' hmem)
      cases hlook : lookupA r2.1.groups g' with
      | none => rw [hlook] at hdomg; simp at hdomg
      | some grp =>
        refine ⟨grp, by rw [hfinal_groups]; exact hlook, ?_⟩
        rw [← hr1id]
        exact hpres grp hlook
    · intro gOld hgOld hgOldne g' hmemOld hnotNew grp hlook
      have hrem := removeFromGroups_spec w1 e gOld hgOld hgOldne
      have hmemOld1 : g' ∈ w1.map.adjacent gOld := by rw [hw1map]; exact hmemOld
      have habs1 : ∀ grp, lookupA r1.1.groups g' = some grp → e.id ∉ grp.entities :=
        fun grp hl => hrem.1 g' hmemOld1 grp hl
      have hproj : (lookupA r2.1.groups g').map Group.entities
          = (lookupA r1.1.groups g').map Group.entities :=
        hadd.2.1 g' (by rw [hadj2]; exact hnotNew)
      have habs2 : ∀ grp, lookupA r2.1.groups g' = some grp → e.id ∉ grp.entities :=
        absent_of_roster_proj_eq r1.1 r2.1 g' e.id hproj habs1
      rw [hfinal_groups] at hlook
      have hid2 : r1.2.1.id = e.id := hr1id
      exact habs2 grp hlook
  · intro hEq hns
    unfold handleEntityGroupMembership
    rw [if_neg]
    push_neg
    constructor
    · rw [hEq]
      unfold jsTruthyGroup
      simp [hns]
    · rw [hEq, ← hgNew]

/-- C5 witness: the mob of the corridor world moves from `g1` to `g3`; it
ends present in `g3`'s roster, absent from `g1`'s (adjacent only to the
old group), the call reports `true`, and re-running membership afterwards
at the same position is a no-op. -/
theorem claim5_witness :
    rosterHasB (handleEntityGroupMembership w3b mob3Moved).1 "g3" 30 = true
    ∧ rosterHasB (handleEntityGroupMembership w3b mob3Moved).1 "g1" 30 = false
    ∧ (handleEntityGroupMembership w3b mob3Moved).2.2 = true := by
  have h := (claim5_halo_replication w3b mob3Moved "g3" (by decide)).1
    (by decide) (by decide) (by decide) (by decide)
  refine ⟨?_, ?_, h.2.2⟩
  · obtain ⟨grp, hlook, hmem⟩ := h.1 "g3" (by decide)
    unfold rosterHasB
    rw [hlook]
    simpa using hmem
  · have habs := h.2.1 "g1" (by decide) (by decide) "g1" (by decide) (by decide)
    unfold rosterHasB
    cases hlook : lookupA (handleEntityGroupMembership w3b mob3Moved).1.groups "g1" with
    | none => rfl
    | some grp =>
      simpa using habs grp hlook

theorem foldl_world_invariant {α β : Type} (proj : World → β) (f : World → α → World)
    (hf : ∀ (w : World) (a : α), proj (f w a) = proj w) :
    ∀ (l : List α) (w : World), proj (l.foldl f w) = proj w := by
  intro l
  induction l with
  | nil => intro w; rfl
  | cons a rest ih =>
    intro w
    rw [List.foldl_cons, ih, hf]

theorem pushToPlayer_world_frame (w : World) (pe : Option Entity) (m : Msg) :
    (pushToPlayer w pe m).entities = w.entities
    ∧ (pushToPlayer w pe m).groups = w.groups
    ∧ (pushToPlayer w pe m).map = w.map
    ∧ (pushToPlayer w pe m).properties = w.properties
    ∧ (pushToPlayer w pe m).itemCount = w.itemCount := by
  unfold pushToPlayer
  cases pe with
  | none => exact ⟨rfl, rfl, rfl, rfl, rfl⟩
  | some p =>
    dsimp only
    split
    · exact ⟨rfl, rfl, rfl, rfl, rfl⟩
    · exact ⟨rfl, rfl, rfl, rfl, rfl⟩

theorem pushToGroup_entities (g : GroupId) (m : Msg) (ign : Option EntityId) (w : World) :
    (pushToGroup w g m ign).entities = w.entities := by
  unfold pushToGroup
  cases hl : lookupA w.groups g with
  | none => rfl
  | some grp =>
    exact foldl_world_invariant World.entities _
      (fun w a => by
        split
        · rfl
        · exact (pushToPlayer_world_frame _ _ _).1)
      grp.players w

theorem pushToGroup_world_frame (g : GroupId) (m : Msg) (ign : Option EntityId) (w : World) :
    (pushToGroup w g m ign).entities = w.entities
    ∧ (pushToGroup w g m ign).groups = w.groups
    ∧ (pushToGroup w g m ign).map = w.map
    ∧ (pushToGroup w g m ign).properties = w.properties
    ∧ (pushToGroup w g m ign).itemCount = w.itemCount := by
  unfold pushToGroup
  cases hl : lookupA w.groups g with
  | none => exact ⟨rfl, rfl, rfl, rfl, rfl⟩
  | some grp =>
    refine ⟨?_, ?_, ?_, ?_, ?_⟩
    · exact foldl_world_invariant World.entities _
        (fun w a => by
          split
          · rfl
          · exact (pushToPlayer_world_frame _ _ _).1) grp.players w
    · exact foldl_world_invariant World.groups _
        (fun w a => by
          split
          · rfl
          · exact (pushToPlayer_world_frame _ _ _).2.1) grp.players w
    · exact foldl_world_invariant World.map _
        (fun w a => by
          split
          · rfl
          · exact (pushToPlayer_world_frame _ _ _).2.2.1) grp.players w
    · exact foldl_world_invariant World.properties _
        (fun w a => by
          split
          · rfl
          · exact (pushToPlayer_world_frame _ _ _).2.2.2.1) grp.players w
    · exact foldl_world_invariant World.itemCount _
        (fun w a => by
          split
          · rfl
          · exact (pushToPlayer_world_frame _ _ _).2.2.2.2) grp.players w

/-- C6 (amended).  For a transition that removed the entity from at least
one group (`oldGroups ≠ []`), `recentlyLeftGroups` afterwards equals the
lodash difference `oldGroups − newGroups` of that transition; when the
transition removed it from no group (`oldGroups = []`, e.g. the respawn
path), the guard `size(oldGroups) > 0` leaves the field at its previous
value.  `pushToPreviousGroups` clears the field (sets it to `[]`) after
pushing the message to each listed group. -/
theorem claim6_recently_left_amended :
    (∀ (w : World) (e : Entity) (gOld gNew : GroupId),
      e.group = some gOld →
      gOld ≠ "" →
      gNew = w.map.getGroupIdFromPosition e.x e.y →
      gNew ≠ "" →
      gOld ≠ gNew →
      (lookupA w.groups gNew).isSome = true →
      (w.map.adjacent gOld).Nodup →
      ((((w.map.adjacent gOld).filter (fun g => rosterHasB w g e.id)) ≠ [] →
        (handleEntityGroupMembership w e).2.1.recentlyLeftGroups
          = ((w.map.adjacent gOld).filter (fun g => rosterHasB w g e.id)).filter
              (fun g => !((w.map.adjacent gNew).contains g)))
      ∧ ((((w.map.adjacent gOld).filter (fun g => rosterHasB w g e.id)) = []) →
        (handleEntityGroupMembership w e).2.1.recentlyLeftGroups
          = e.recentlyLeftGroups)))
    ∧ (∀ (w : World) (p : Entity) (msg : Msg) (pr : Entity),
        lookupA w.entities p.id = some pr →
        pr.id = p.id →
        ((pushToPreviousGroups w p msg).getEntityById p.id).map Entity.recentlyLeftGroups
          = some []) := by
  constructor
  · intro w e gOld gNew hgOld hgOldne hgNew hns hdiff hdom hnd
    have hcond : jsTruthyGroup e.group = false
        ∨ e.group ≠ some (w.map.getGroupIdFromPosition e.x e.y) := by
      right
      rw [← hgNew, hgOld]
      intro hc
      exact hdiff (Option.some.inj hc)
    have hunfold : handleEntityGroupMembership w e =
        (let r1 := removeFromGroups (addAsIncomingToGroup w e gNew) e
         let r2 := addToGroup r1.1 r1.2.1 gNew
         if r1.2.2.length > 0 then
           (r2.1.setEntity { r2.2.1 with
              recentlyLeftGroups := r1.2.2.filter (fun g => !(r2.2.2.contains g)) },
            { r2.2.1 with
              recentlyLeftGroups := r1.2.2.filter (fun g => !(r2.2.2.contains g)) },
            true)
         else (r2.1, r2.2.1, true)) := by
      unfold handleEntityGroupMembership
      rw [if_pos hcond, ← hgNew]
    set w1 := addAsIncomingToGroup w e gNew with hw1
    set r1 := removeFromGroups w1 e with hr1
    set r2 := addToGroup r1.1 r1.2.1 gNew with hr2
    have hw1map : w1.map = w.map := (addAsIncoming_frame w e gNew).2.2.1
    have hw1keys : w1.groups.map Prod.fst = w.groups.map Prod.fst := addAsIncoming_keys w e gNew
    have hrem := removeFromGroups_spec w1 e gOld hgOld hgOldne
    have hcollected : r1.2.2 = (w.map.adjacent gOld).filter (fun g => rosterHasB w g e.id) := by
      have h1 := hrem.2.2.1 (by rw [hw1map]; exact hnd)
      have h2 : (w1.map.adjacent gOld) = w.map.adjacent gOld := by rw [hw1map]
      rw [hr1, h1, h2]
      refine List.filter_congr ?_
      intro g _
      exact rosterHasB_congr w1 w g e.id (addAsIncoming_roster w e gNew g)
    have hr1gen := removeFromGroups_generic w1 e
    have hr1keys : r1.1.groups.map Prod.fst = w.groups.map Prod.fst := by
      rw [hr1gen.1, hw1keys]
    have hr1map : r1.1.map = w.map := by rw [hr1gen.2.1, hw1map]
    have hdom2 : (lookupA r1.1.groups gNew).isSome = true :=
      isSome_of_keys_eq r1.1.groups w.groups gNew hr1keys hdom
    have hadd := addToGroup_spec r1.1 r1.2.1 gNew hns hdom2
    have hnewGroups : r2.2.2 = w.map.adjacent gNew := by
      rw [hr2]
      show (addToGroup r1.1 r1.2.1 gNew).2.2 = _
      rw [hadd.2.2.1, hr1map]
    have hentity2 : r2.2.1.recentlyLeftGroups = e.recentlyLeftGroups := by
      rw [hr2]
      show (addToGroup r1.1 r1.2.1 gNew).2.1.recentlyLeftGroups = _
      rw [hadd.2.2.2.1]
      show r1.2.1.recentlyLeftGroups = _
      rw [hr1]
      show (removeFromGroups w1 e).2.1.recentlyLeftGroups = _
      rw [hrem.2.2.2.1]
    constructor
    · intro hne
      have hlen : r1.2.2.length > 0 := by
        rw [hcollected]
        exact List.length_pos.mpr hne
      rw [hunfold]
      dsimp only
      rw [if_pos hlen]
      show r1.2.2.filter (fun g => !(r2.2.2.contains g)) = _
      rw [hcollected, hnewGroups]
    · intro hnil
      have hlen : ¬ (r1.2.2.length > 0) := by
        rw [hcollected, hnil]
        simp
      rw [hunfold]
      dsimp only
      rw [if_neg hlen]
      exact hentity2
  · intro w p msg pr hpr hid
    unfold pushToPreviousGroups
    dsimp only
    set w2 := p.recentlyLeftGroups.foldl (fun w id => pushToGroup w id msg none) w with hw2
    have hent : w2.entities = w.entities :=
      foldl_world_invariant World.entities _
        (fun w a => pushToGroup_entities a msg none w) p.recentlyLeftGroups w
    have hlook2 : lookupA w2.entities p.id = some pr := by rw [hent]; exact hpr
    have hgd : (w2.getEntityById p.id).getD p = pr := by
      unfold World.getEntityById
      rw [hlook2]
      rfl
    rw [hgd]
    unfold World.getEntityById World.setEntity
    dsimp only
    rw [lookupA_updateA]
    rw [if_pos hid.symm, hlook2]
    rfl

/-- C6 witness: the corridor mob's `g1 → g3` transition stores
`recentlyLeftGroups = oldGroups − newGroups` (here `["g1"]`), and
`pushToPreviousGroups` resets the registered mob's field to `[]`. -/
theorem claim6_witness :
    (handleEntityGroupMembership w3b mob3Moved).2.1.recentlyLeftGroups
      = ((w3b.map.adjacent "g1").filter (fun g => rosterHasB w3b g 30)).filter
          (fun g => !((w3b.map.adjacent "g3").contains g))
    ∧ ((pushToPreviousGroups w3a mob3Reg (Msg.destroy 30)).getEntityById
        mob3Reg.id).map Entity.recentlyLeftGroups = some [] := by
  constructor
  · exact (claim6_recently_left_amended.1 w3b mob3Moved "g1" "g3"
      (by decide) (by decide) (by decide) (by decide) (by decide) (by decide)
      (by decide)).1 (by decide)
  · exact claim6_recently_left_amended.2 w3a mob3Reg (Msg.destroy 30) mob3Reg
      (by decide) (by decide)

theorem addToGroup_queues (w : World) (e : Entity) (gid : GroupId) :
    (addToGroup w e gid).1.outgoingQueues = w.outgoingQueues := by
  unfold addToGroup
  split
  · dsimp only
    split
    · exact (addLoop_frame e.id (w.map.adjacent gid) w).2.1
    · exact (addLoop_frame e.id (w.map.adjacent gid) w).2.1
  · rfl

theorem hEGM_queues (w : World) (e : Entity) :
    (handleEntityGroupMembership w e).1.outgoingQueues = w.outgoingQueues := by
  unfold handleEntityGroupMembership
  dsimp only
  split
  · split
    · show (addToGroup _ _ _).1.outgoingQueues = _
      rw [addToGroup_queues, (removeFromGroups_generic _ _).2.2, (addAsIncoming_frame w e _).2.1]
    · show (addToGroup _ _ _).1.outgoingQueues = _
      rw [addToGroup_queues, (removeFromGroups_generic _ _).2.2, (addAsIncoming_frame w e _).2.1]
  · rfl

theorem addItem_queues (w : World) (it : Entity) :
    (addItem w it).1.outgoingQueues = w.outgoingQueues := by
  unfold addItem addEntity
  exact hEGM_queues _ it

/-- Shape of a successful loot roll: queues untouched, and a dropped item
gets id `jsItemId w.itemCount`. -/
theorem getDroppedItem_shape (w : World) (mob : Entity) (v : Nat) (pr : PropEntry)
    (hpr : lookupA w.properties mob.kind = some pr) :
    (dropWin v 0 (pr.drops.getD []) = none → getDroppedItem w mob v = Except.ok (w, none))
    ∧ (∀ nm, dropWin v 0 (pr.drops.getD []) = some nm →
        ∃ w2 item, getDroppedItem w mob v = Except.ok (w2, some item)
          ∧ w2.outgoingQueues = w.outgoingQueues
          ∧ item.id = jsItemId w.itemCount) := by
  constructor
  · intro h
    simp [getDroppedItem, hpr, h]
  · intro nm h
    refine ⟨(addItem (createItem w nm mob.x mob.y).1 (createItem w nm mob.x mob.y).2).1,
      (addItem (createItem w nm mob.x mob.y).1 (createItem w nm mob.x mob.y).2).2,
      by simp [getDroppedItem, hpr, h], ?_, ?_⟩
    · rw [addItem_queues]
      rfl
    · rw [(addItem_entity_proj _ _).2]
      rfl

theorem clearMobAggroLink_queues (w : World) (mob : Entity) :
    (clearMobAggroLink w mob).outgoingQueues = w.outgoingQueues := by
  unfold clearMobAggroLink
  cases mob.target with
  | none => rfl
  | some tid =>
    dsimp only
    cases w.getEntityById tid with
    | none => rfl
    | some p => rfl

theorem clearMobHateLinks_queues (w : World) (mob : Entity) :
    (clearMobHateLinks w mob).outgoingQueues = w.outgoingQueues := by
  unfold clearMobHateLinks
  refine foldl_world_invariant World.outgoingQueues _ ?_ mob.hatelist w
  intro w a
  dsimp only
  cases w.getEntityById a.1 with
  | none => rfl
  | some p => rfl

theorem removeEntity_queues (w : World) (e : Entity) :
    (removeEntity w e).outgoingQueues = w.outgoingQueues := by
  unfold removeEntity
  dsimp only
  rw [(removeFromGroups_generic _ _).2.2]
  split
  · rw [clearMobHateLinks_queues, clearMobAggroLink_queues]
  · rfl

theorem pushToPlayer_lookup_cases (w : World) (pe : Option Entity) (m : Msg)
    (pid : EntityId) (q : List Msg) (h : lookupA w.outgoingQueues pid = some q) :
    ∃ k, lookupA (pushToPlayer w pe m).outgoingQueues pid
      = some (q ++ List.replicate k m) := by
  unfold pushToPlayer
  cases pe with
  | none => exact ⟨0, by simpa using h⟩
  | some p =>
    dsimp only
    split
    · by_cases hpid : pid = p.id
      · refine ⟨1, ?_⟩
        rw [lookupA_updateA, if_pos hpid, h]
        rfl
      · refine ⟨0, ?_⟩
        rw [lookupA_updateA, if_neg hpid, h]
        simp
    · exact ⟨0, by simpa using h⟩

theorem foldl_push_replicate {α : Type} (f : World → α → World) (m : Msg) (pid : EntityId)
    (hf : ∀ (w : World) (a : α) (q : List Msg), lookupA w.outgoingQueues pid = some q →
       ∃ k, lookupA (f w a).outgoingQueues pid = some (q ++ List.replicate k m)) :
    ∀ (l : List α) (w : World) (q : List Msg), lookupA w.outgoingQueues pid = some q →
       ∃ k, lookupA (l.foldl f w).outgoingQueues pid = some (q ++ List.replicate k m) := by
  intro l
  induction l with
  | nil =>
    intro w q h
    exact ⟨0, by simpa using h⟩
  | cons a rest ih =>
    intro w q h
    obtain ⟨k1, h1⟩ := hf w a q h
    obtain ⟨k2, h2⟩ := ih (f w a) (q ++ List.replicate k1 m) h1
    refine ⟨k1 + k2, ?_⟩
    rw [List.foldl_cons, h2, List.append_assoc, ← List.replicate_add]

theorem pushToGroup_replicate (g : GroupId) (m : Msg) (ign : Option EntityId)
    (pid : EntityId) (w : World) (q : List Msg)
    (h : lookupA w.outgoingQueues pid = some q) :
    ∃ k, lookupA (pushToGroup w g m ign).outgoingQueues pid
      = some (q ++ List.replicate k m) := by
  unfold pushToGroup
  cases hl : lookupA w.groups g with
  | none => exact ⟨0, by simpa using h⟩
  | some grp =>
    refine foldl_push_replicate _ m pid ?_ grp.players w q h
    intro w a q hq
    dsimp only
    split
    · exact ⟨0, by simpa using hq⟩
    · exact pushToPlayer_lookup_cases w _ m pid q hq

theorem pushToAdjacentGroups_replicate (gid : Option GroupId) (m : Msg)
    (ign : Option EntityId) (pid : EntityId) (w : World) (q : List Msg)
    (h : lookupA w.outgoingQueues pid = some q) :
    ∃ k, lookupA (pushToAdjacentGroups w gid m ign).outgoingQueues pid
      = some (q ++ List.replicate k m) := by
  unfold pushToAdjacentGroups
  refine foldl_push_replicate _ m pid ?_ (adjacentOf w.map gid) w q h
  intro w a q hq
  exact pushToGroup_replicate a m ign pid w q hq

/-- C7.  On lethal damage to a mob, the attacker's queue receives — in
this order — the damage notice, the kill notice, then every copy of the
despawn announcement its group memberships yield, and only then (and only
when the loot roll won an entry) copies of the drop announcement: a drop
is never enqueued before the despawn.  The drop part is empty exactly when
the roll produced no item. -/
theorem claim7_kill_despawn_drop_order :
    ∀ (w : World) (mob attacker : Entity) (damage v : Nat) (pr : PropEntry) (qA : List Msg),
      mob.etype = EType.mob →
      mob.hitPoints ≤ 0 →
      lookupA w.properties mob.kind = some pr →
      lookupA w.outgoingQueues attacker.id = some qA →
      ∃ (w' : World) (a b : Nat),
        handleHurtEntity w mob attacker damage v = Except.ok w'
        ∧ lookupA w'.outgoingQueues attacker.id =
            some (qA ++ [Msg.damage mob.id damage, Msg.kill mob.id]
              ++ List.replicate a (Msg.despawnMsg mob.id)
              ++ (dropWin v 0 (pr.drops.getD [])).elim []
                    (fun _ => List.replicate b (Msg.drop mob.id (jsItemId w.itemCount)))) := by
  intro w mob attacker damage v pr qA hmob hdead hpr hq
  have hnp : ¬ (mob.etype = EType.player) := by rw [hmob]; decide
  have hw2props : (pushToPlayer w (some attacker) (Msg.damage mob.id damage)).properties
      = w.properties := (pushToPlayer_world_frame _ _ _).2.2.2.1
  have hw2count : (pushToPlayer w (some attacker) (Msg.damage mob.id damage)).itemCount
      = w.itemCount := (pushToPlayer_world_frame _ _ _).2.2.2.2
  have hpr2 : lookupA (pushToPlayer w (some attacker)
      (Msg.damage mob.id damage)).properties mob.kind = some pr := by
    rw [hw2props]; exact hpr
  have hq2 : lookupA (pushToPlayer w (some attacker)
      (Msg.damage mob.id damage)).outgoingQueues attacker.id
      = some (qA ++ [Msg.damage mob.id damage]) :=
    pushToPlayer_lookup_self w attacker _ qA hq
  cases hdw : dropWin v 0 (pr.drops.getD []) with
  | none =>
    have hgd := (getDroppedItem_shape _ mob v pr hpr2).1 hdw
    have heval : handleHurtEntity w mob attacker damage v = Except.ok
        (removeEntity
          (pushToAdjacentGroups
            (pushToPlayer (pushToPlayer w (some attacker) (Msg.damage mob.id damage))
              (some attacker) (Msg.kill mob.id))
            mob.group (Msg.despawnMsg mob.id) none)
          (((pushToAdjacentGroups
            (pushToPlayer (pushToPlayer w (some attacker) (Msg.damage mob.id damage))
              (some attacker) (Msg.kill mob.id))
            mob.group (Msg.despawnMsg mob.id) none).getEntityById mob.id).getD mob)) := by
      unfold handleHurtEntity
      simp only [hmob, reduceCtorEq, reduceIte]
      rw [if_pos hdead]
      rw [hgd]
      rfl
    have hq3 := pushToPlayer_lookup_self _ attacker (Msg.kill mob.id) _ hq2
    obtain ⟨a, hq4⟩ := pushToAdjacentGroups_replicate mob.group (Msg.despawnMsg mob.id)
      none attacker.id _ _ hq3
    refine ⟨_, a, 0, heval, ?_⟩
    have hrq := removeEntity_queues
      (pushToAdjacentGroups
        (pushToPlayer (pushToPlayer w (some attacker) (Msg.damage mob.id damage))
          (some attacker) (Msg.kill mob.id))
        mob.group (Msg.despawnMsg mob.id) none)
      (((pushToAdjacentGroups
        (pushToPlayer (pushToPlayer w (some attacker) (Msg.damage mob.id damage))
          (some attacker) (Msg.kill mob.id))
        mob.group (Msg.despawnMsg mob.id) none).getEntityById mob.id).getD mob)
    rw [hrq, hq4]
    simp

  | some nm =>
    obtain ⟨wg, item, heq, hqpres, hid⟩ := (getDroppedItem_shape _ mob v pr hpr2).2 nm hdw
    have heval : handleHurtEntity w mob attacker damage v = Except.ok
        (removeEntity
          (pushToAdjacentGroups
            (pushToAdjacentGroups (pushToPlayer wg (some attacker) (Msg.kill mob.id))
              mob.group (Msg.despawnMsg mob.id) none)
            mob.group (Msg.drop mob.id item.id) none)
          (((pushToAdjacentGroups
            (pushToAdjacentGroups (pushToPlayer wg (some attacker) (Msg.kill mob.id))
              mob.group (Msg.despawnMsg mob.id) none)
            mob.group (Msg.drop mob.id item.id) none).getEntityById mob.id).getD mob)) := by
      unfold handleHurtEntity
      simp only [hmob, reduceCtorEq, reduceIte]
      rw [if_pos hdead]
      rw [heq]
      rfl
    have hqg : lookupA wg.outgoingQueues attacker.id
        = some (qA ++ [Msg.damage mob.id damage]) := by
      rw [hqpres]; exact hq2
    have hq3 := pushToPlayer_lookup_self wg attacker (Msg.kill mob.id) _ hqg
    obtain ⟨a, hq4⟩ := pushToAdjacentGroups_replicate mob.group (Msg.despawnMsg mob.id)
      none attacker.id _ _ hq3
    obtain ⟨b, hq5⟩ := pushToAdjacentGroups_replicate mob.group (Msg.drop mob.id item.id)
      none attacker.id _ _ hq4
    refine ⟨_, a, b, heval, ?_⟩
    have hrq := removeEntity_queues
      (pushToAdjacentGroups
        (pushToAdjacentGroups (pushToPlayer wg (some attacker) (Msg.kill mob.id))
          mob.group (Msg.despawnMsg mob.id) none)
        mob.group (Msg.drop mob.id item.id) none)
      (((pushToAdjacentGroups
        (pushToAdjacentGroups (pushToPlayer wg (some attacker) (Msg.kill mob.id))
          mob.group (Msg.despawnMsg mob.id) none)
        mob.group (Msg.drop mob.id item.id) none).getEntityById mob.id).getD mob)
    rw [hrq, hq5]
    have hiditem : item.id = jsItemId w.itemCount := by rw [hid, hw2count]
    rw [hiditem]
    simp

/-- C7 witness: in `wHurtIn` the dying mob 3 (kind `"rat"`, draw 0 wins
item A) is killed by player 1, whose queue held one attack announcement:
the application yields damage, kill, despawn copies, then drop copies. -/
theorem claim7_witness :
    ∃ (w' : World) (a b : Nat),
      handleHurtEntity wHurtIn mDying pFresh 7 0 = Except.ok w'
      ∧ lookupA w'.outgoingQueues pFresh.id =
          some ([Msg.attack 3] ++ [Msg.damage mDying.id 7, Msg.kill mDying.id]
            ++ List.replicate a (Msg.despawnMsg mDying.id)
            ++ (dropWin 0 0 (({ drops := some [("A", 30), ("B", 20)] } : PropEntry).drops.getD [])).elim []
                  (fun _ => List.replicate b (Msg.drop mDying.id (jsItemId wHurtIn.itemCount)))) :=
  claim7_kill_despawn_drop_order wHurtIn mDying pFresh 7 0
    { drops := some [("A", 30), ("B", 20)] } [Msg.attack 3]
    (by decide) (by decide) (by decide) (by decide)

end LeetQuest
